import Mathlib

/-!
Verification of the CareerOS backend (careeros-backend/app) against its
natural-language specification.  The Python sources are shallowly embedded:
pure helpers become Lean functions, the SQLite tables become lists of row
structures threaded through the handler functions, and the external
collaborators (SHA-256, the JWT MAC, the hosted model) are abstracted as
function parameters.  Strings are modelled as Lean `String`/`List Char`
(Python `str` code points).
-/

namespace CareerOS

/-- Character list, the workhorse representation for the parsing code. -/
abbrev Chars := List Char

/- ----------------------------------------------------------------------
   Credential store: app/auth.py
   ---------------------------------------------------------------------- -/

/-- Lowercase-hex test, the alphabet of `secrets.token_hex` output. -/
def isHexLower (c : Char) : Bool :=
  (48 ≤ c.toNat && c.toNat ≤ 57) || (97 ≤ c.toNat && c.toNat ≤ 102)

/-- app/auth.py `get_password_hash` (lines 50-54): a random salt is drawn
(`secrets.token_hex(16)`, here the `salt` parameter), the digest is
`sha256((salt + password).encode()).hexdigest()` (the abstract `sha256hex`
parameter), and the stored value is `f"{salt}:{password_hash}"`. -/
def get_password_hash (sha256hex : Chars → Chars) (salt password : Chars) : Chars :=
  salt ++ ':' :: sha256hex (salt ++ password)

/-- app/auth.py `verify_password` (lines 41-47): fail closed when no `':'`
occurs, otherwise `split(':', 1)` and recompute the digest with the extracted
salt; `secrets.compare_digest` is functionally string equality (its constant
time behaviour is not observable here). -/
def verify_password (sha256hex : Chars → Chars) (plain stored : Chars) : Bool :=
  if ':' ∈ stored then
    let salt := stored.takeWhile (fun c => c ≠ ':')
    let storedHash := ((stored.dropWhile (fun c => c ≠ ':')).drop 1)
    sha256hex (salt ++ plain) == storedHash
  else
    false

/- ----------------------------------------------------------------------
   Decimal integer codec: str(user_id) in create_access_token and
   int(user_id_str) in get_current_user.
   ---------------------------------------------------------------------- -/

/-- Decimal digit character. -/
def digitChar (d : Nat) : Char := Char.ofNat (48 + d)

/-- Fueled implementation of Python `str` on naturals; the fuel only bounds
the digit count and `natToStr` always supplies enough. -/
def natToStrAux : Nat → Nat → Chars
  | 0, _ => []
  | fuel + 1, n =>
    if n < 10 then [digitChar n]
    else natToStrAux fuel (n / 10) ++ [digitChar (n % 10)]

/-- Python `str(n)` for a natural number. -/
def natToStr (n : Nat) : Chars := natToStrAux (n + 1) n

/-- Decimal digit test. -/
def isDigitChar (c : Char) : Bool := 48 ≤ c.toNat && c.toNat ≤ 57

/-- Python `int(s)` on the digit-string fragment relevant here: the subject
claims produced by the app are `str(user_id)`, plain digit runs.  Any string
containing a non-digit is rejected (Python raises `ValueError`). -/
def parseNatStr (cs : Chars) : Option Nat :=
  if cs ≠ [] ∧ cs.all isDigitChar then
    some (cs.foldl (fun a c => a * 10 + (c.toNat - 48)) 0)
  else
    none

/- ----------------------------------------------------------------------
   Session tokens: app/auth.py create_access_token / get_current_user.
   The JWT library (python-jose, HS256) is abstracted: a token is its claim
   set plus a MAC over the claim set computed with the shared secret; the
   MAC function is an arbitrary parameter.
   ---------------------------------------------------------------------- -/

/-- Claim set of a token: the `sub` claim (a string, possibly absent) and
the `exp` claim (epoch seconds). -/
structure AuthPayload where
  sub : Option Chars
  exp : Nat
deriving DecidableEq

/-- A signed token: claims plus signature. -/
structure AuthToken where
  payload : AuthPayload
  sig : Nat
deriving DecidableEq

/-- HTTP-level error taxonomy used by the handlers. -/
inductive HErr where
  | unauthorized
  | notFound
  | badRequest
  | checkViolation
  | internal
deriving DecidableEq

/-- app/auth.py `create_access_token` (lines 57-67) for `data={"sub": uid}`:
the subject is stringified, the expiry is `utcnow() + expires` (minutes;
the configured default is 7 days), and the result is signed with the shared
secret. -/
def create_access_token (mac : Chars → AuthPayload → Nat) (secret : Chars)
    (uid : Nat) (now expireMinutes : Nat) : AuthToken :=
  let p : AuthPayload := { sub := some (natToStr uid), exp := now + expireMinutes * 60 }
  { payload := p, sig := mac secret p }

/-- `jwt.decode` as performed by python-jose for HS256: reject a signature
mismatch, then reject an expired token (`exp < now` raises
`ExpiredSignatureError`); both surface as `JWTError`. -/
def jwtDecode (mac : Chars → AuthPayload → Nat) (secret : Chars)
    (t : AuthToken) (now : Nat) : Except Unit AuthPayload :=
  if t.sig = mac secret t.payload then
    if t.payload.exp < now then .error () else .ok t.payload
  else
    .error ()

/-- Row returned by `SELECT id, email FROM users WHERE id = ?`. -/
structure AuthUserRow where
  id : Nat
  email : String
deriving DecidableEq

/-- app/auth.py `get_current_user` (lines 70-93): decode the bearer token,
read the `sub` claim, convert it with `int(...)`, and look the user up; any
`JWTError` or `ValueError`, a missing subject, or an unknown user id maps to
the 401 `credentials_exception`. -/
def get_current_user (mac : Chars → AuthPayload → Nat) (secret : Chars)
    (db : List AuthUserRow) (now : Nat) (t : AuthToken) : Except HErr AuthUserRow :=
  match jwtDecode mac secret t now with
  | .error _ => .error .unauthorized
  | .ok p =>
    match p.sub with
    | none => .error .unauthorized
    | some s =>
      match parseNatStr s with
      | none => .error .unauthorized
      | some uid =>
        match db.find? (fun u => u.id == uid) with
        | none => .error .unauthorized
        | some u => .ok u

/- ----------------------------------------------------------------------
   JSON codec for list-valued fields (target_roles, values, skills_used,
   tags).  Writes go through Python `json.dumps` (default options:
   ensure_ascii=True, separator ", "), reads through `json.loads`.  The
   encoder below reproduces `json.dumps` on lists of strings exactly; the
   decoder reproduces `json.loads` on the JSON fragment such stored texts
   live in (arrays of string literals).  Lone-surrogate `\uXXXX` escapes,
   which Python would accept but Lean `Char` cannot represent, are
   rejected; no output of the encoder contains them.
   ---------------------------------------------------------------------- -/

/-- Lowercase hexadecimal digit, as produced by `\uXXXX` escaping. -/
def hexDigitChar (d : Nat) : Char :=
  if d < 10 then Char.ofNat (48 + d) else Char.ofNat (87 + d)

/-- Four-digit lowercase hex rendering of `n < 0x10000`. -/
def hex4 (n : Nat) : Chars :=
  [hexDigitChar (n / 4096 % 16), hexDigitChar (n / 256 % 16),
   hexDigitChar (n / 16 % 16), hexDigitChar (n % 16)]

/-- Value of a hexadecimal digit, either case (as accepted by `json.loads`). -/
def hexCharVal (c : Char) : Option Nat :=
  if 48 ≤ c.toNat ∧ c.toNat ≤ 57 then some (c.toNat - 48)
  else if 97 ≤ c.toNat ∧ c.toNat ≤ 102 then some (c.toNat - 87)
  else if 65 ≤ c.toNat ∧ c.toNat ≤ 70 then some (c.toNat - 55)
  else none

/-- `json.dumps` escaping of one character (the `ensure_ascii` encoder):
backslash and quote get two-character escapes, printable ASCII is literal,
the five short control escapes come next, every other code point becomes
`\uXXXX`, with a surrogate pair for astral code points. -/
def encodeChar (c : Char) : Chars :=
  if c = '"' then ['\\', '"']
  else if c = '\\' then ['\\', '\\']
  else if 32 ≤ c.toNat ∧ c.toNat ≤ 126 then [c]
  else if c.toNat = 8 then ['\\', 'b']
  else if c.toNat = 9 then ['\\', 't']
  else if c.toNat = 10 then ['\\', 'n']
  else if c.toNat = 12 then ['\\', 'f']
  else if c.toNat = 13 then ['\\', 'r']
  else if c.toNat < 65536 then '\\' :: 'u' :: hex4 c.toNat
  else '\\' :: 'u' :: hex4 (55296 + (c.toNat - 65536) / 1024) ++
       '\\' :: 'u' :: hex4 (56320 + (c.toNat - 65536) % 1024)

/-- Concatenated escape of a whole string body. -/
def encodeChars : Chars → Chars
  | [] => []
  | c :: cs => encodeChar c ++ encodeChars cs

/-- A JSON string literal: quote, escaped body, quote. -/
def encodeString (s : Chars) : Chars :=
  '"' :: (encodeChars s ++ ['"'])

/-- `", ".join` of the encoded elements (the default `json.dumps` item
separator). -/
def encListSep : List Chars → Chars
  | [] => []
  | s :: t =>
    match t with
    | [] => encodeString s
    | _ :: _ => encodeString s ++ ',' :: ' ' :: encListSep t

/-- `json.dumps` of a list of strings. -/
def dumps (l : List Chars) : Chars :=
  '[' :: (encListSep l ++ [']'])

/-- Decode table for the single-character escapes accepted by `json.loads`. -/
def simpleEscape (c : Char) : Option Char :=
  if c = '"' then some '"'
  else if c = '\\' then some '\\'
  else if c = '/' then some '/'
  else if c = 'b' then some (Char.ofNat 8)
  else if c = 'f' then some (Char.ofNat 12)
  else if c = 'n' then some (Char.ofNat 10)
  else if c = 'r' then some (Char.ofNat 13)
  else if c = 't' then some (Char.ofNat 9)
  else none

/-- Split the first four characters off a stream. -/
def take4 : Chars → Option (Char × Char × Char × Char × Chars)
  | h1 :: h2 :: h3 :: h4 :: rest => some (h1, h2, h3, h4, rest)
  | _ => none

/-- Value of four hex digits. -/
def hex4Val (h1 h2 h3 h4 : Char) : Option Nat :=
  match hexCharVal h1, hexCharVal h2, hexCharVal h3, hexCharVal h4 with
  | some a, some b, some c, some d => some (a * 4096 + b * 256 + c * 16 + d)
  | _, _, _, _ => none

/-- Parse the `XXXX` of a `\uXXXX` escape: four hex digits. -/
def parseUEscape (cs : Chars) : Option (Nat × Chars) :=
  match take4 cs with
  | some (h1, h2, h3, h4, rest) => (hex4Val h1 h2 h3 h4).map (fun n => (n, rest))
  | none => none

/-- Decode one escape sequence, positioned just after the backslash: the
single-character escapes, `\uXXXX` code units, and high–low surrogate pairs
combined into one code point.  A lone surrogate is rejected (Python would
keep it as an unpaired surrogate in the `str`; Lean `Char` cannot carry it,
and no text the encoder writes contains one). -/
def decodeEscape (rest : Chars) : Option (Char × Chars) :=
  match rest with
  | [] => none
  | e :: rest2 =>
    if e = 'u' then
      match parseUEscape rest2 with
      | none => none
      | some (n, rest3) =>
        if 55296 ≤ n ∧ n < 56320 then
          match rest3 with
          | bs :: u2 :: rest4 =>
            if bs = '\\' ∧ u2 = 'u' then
              match parseUEscape rest4 with
              | none => none
              | some (m, rest5) =>
                if 56320 ≤ m ∧ m < 57344 then
                  some (Char.ofNat (65536 + (n - 55296) * 1024 + (m - 56320)), rest5)
                else none
            else none
          | _ => none
        else if 56320 ≤ n ∧ n < 57344 then none
        else some (Char.ofNat n, rest3)
    else
      match simpleEscape e with
      | some d => some (d, rest2)
      | none => none

/-- Body of a JSON string literal, after the opening quote: returns the
decoded characters and the input remaining after the closing quote.  Raw
control characters are rejected (`strict=True`) and escapes are decoded.
The fuel falls by one per decoded character, so the input length always
suffices; `parseStringBody` supplies it. -/
def parseStringBodyF : Nat → Chars → Option (Chars × Chars)
  | 0, _ => none
  | fuel + 1, cs =>
    match cs with
    | [] => none
    | c :: rest =>
      if c = '"' then some ([], rest)
      else if c = '\\' then
        match decodeEscape rest with
        | some (d, rest2) => (parseStringBodyF fuel rest2).map (fun pr => (d :: pr.1, pr.2))
        | none => none
      else if 32 ≤ c.toNat then
        (parseStringBodyF fuel rest).map (fun pr => (c :: pr.1, pr.2))
      else none

/-- Body of a JSON string literal (fuel pre-supplied). -/
def parseStringBody (cs : Chars) : Option (Chars × Chars) :=
  parseStringBodyF cs.length cs

/-- A complete JSON string literal including its opening quote. -/
def parseQuotedString : Chars → Option (Chars × Chars)
  | '"' :: rest => parseStringBody rest
  | _ => none

/-- JSON whitespace skipped by the `json.loads` scanner. -/
def isJsonWs (c : Char) : Bool :=
  c = ' ' || c.toNat = 9 || c.toNat = 10 || c.toNat = 13

/-- Skip JSON whitespace. -/
def skipWs (cs : Chars) : Chars := cs.dropWhile isJsonWs

/-- Comma-separated string elements of a non-empty array, up to and past the
closing bracket.  The fuel only bounds the element count; callers supply the
input length, which always suffices. -/
def parseElemsF : Nat → Chars → Option (List Chars × Chars)
  | 0, _ => none
  | fuel + 1, cs =>
    match parseQuotedString cs with
    | none => none
    | some (s, rest) =>
      match skipWs rest with
      | ',' :: rest2 =>
        match parseElemsF fuel (skipWs rest2) with
        | some (t, rest3) => some (s :: t, rest3)
        | none => none
      | ']' :: rest2 => some ([s], rest2)
      | _ => none

/-- `json.loads` on the fragment inhabited by the stored list fields: a JSON
array of string literals, with surrounding whitespace.  Texts outside the
fragment (other JSON values, malformed input) yield `none`. -/
def loadsStrList (cs : Chars) : Option (List Chars) :=
  match skipWs cs with
  | '[' :: rest =>
    let r1 := skipWs rest
    if r1.head? = some ']' then
      if skipWs r1.tail = [] then some [] else none
    else
      match parseElemsF (cs.length + 1) r1 with
      | some (l, rest2) => if skipWs rest2 = [] then some l else none
      | none => none
  | _ => none

/-- Serialization of a list field as written by the create/update handlers
(app/routes.py, e.g. lines 202-203, 257-258, 118-119):
`json.dumps(value) if value else "[]"` — `None` and the empty list both
store as `"[]"`. -/
def serializeListField (x : Option (List String)) : String :=
  match x with
  | none => String.mk ('[' :: [']'])
  | some l =>
    if l = [] then String.mk ('[' :: [']'])
    else String.mk (dumps (l.map (fun s => s.data)))

/-- Read-back of a list field (app/routes.py, e.g. lines 175-189, 223-237,
93-107): a falsy stored value (NULL or the empty string) yields `[]`, a
stored text that parses yields the parsed list, and a parse failure is
swallowed by the bare `except`, degrading to `[]`. -/
def readListField (stored : Option String) : List String :=
  match stored with
  | none => []
  | some s =>
    if s.data = [] then []
    else
      match loadsStrList s.data with
      | some l => l.map (fun cs => String.mk cs)
      | none => []

/- ----------------------------------------------------------------------
   Rows and CRUD handlers: app/database.py init_db defines the tables,
   app/routes.py the handlers.  Each table is a list of row structures in
   insertion order; timestamps are abstract clock readings (Nat).
   ---------------------------------------------------------------------- -/

/-- Column lists of the tables created by app/database.py `init_db`
(lines 41-111), in declaration order. -/
def usersTableColumns : List String :=
  ["id", "email", "hashed_password", "created_at"]

/-- Columns of `profiles`. -/
def profilesTableColumns : List String :=
  ["id", "user_id", "name", "email", "phone", "location", "linkedin",
   "website", "summary", "branding_color", "branding_font", "target_roles",
   "user_values", "created_at", "updated_at"]

/-- Columns of `achievements`; note there is no `updated_at` column. -/
def achievementsTableColumns : List String :=
  ["id", "user_id", "core_task", "impact_metric", "skills_used", "tags",
   "company", "role", "year", "verification_level", "created_at"]

/-- Columns of `applications`. -/
def applicationsTableColumns : List String :=
  ["id", "user_id", "job_title", "company", "job_url", "job_description",
   "status", "match_score", "notes", "applied_at", "created_at", "updated_at"]

/-- Columns of `chat_messages`. -/
def chatMessagesTableColumns : List String :=
  ["id", "user_id", "role", "content", "created_at"]

/-- Row of the `users` table (created_at omitted; nothing reads it). -/
structure UserRow where
  id : Nat
  email : String
  hashed_password : String
deriving DecidableEq

/-- AUTOINCREMENT id assignment: one more than the largest id ever used;
with append-only registration this is `max + 1`. -/
def nextUserId (db : List UserRow) : Nat :=
  (db.map (fun u => u.id)).foldr max 0 + 1

/-- app/routes.py `register` (lines 26-52), persistence part: a `SELECT`
for the email first, a 400 `HTTPException` if a row exists, otherwise an
`INSERT` (the companion profile insert and token issuance are separate). -/
def register (email hashed : String) (db : List UserRow) :
    Except HErr Nat × List UserRow :=
  match db.find? (fun u => u.email == email) with
  | some _ => (.error .badRequest, db)
  | none =>
    let uid := nextUserId db
    (.ok uid, db ++ [{ id := uid, email := email, hashed_password := hashed }])

/-- Row of the `achievements` table.  List-valued fields are stored as
serialized text, exactly as in the database. -/
structure AchRow where
  id : Nat
  user_id : Nat
  core_task : String
  impact_metric : Option String
  skills_used : Option String
  tags : Option String
  company : Option String
  role : Option String
  year : Option Int
  verification_level : Option String
  created_at : Nat
deriving DecidableEq

/-- app/schemas.py `AchievementUpdate` after request validation. -/
structure AchievementUpdate where
  core_task : String
  impact_metric : Option String
  skills_used : Option (List String)
  tags : Option (List String)
  company : Option String
  role : Option String
  year : Option Int
  verification_level : Option String
deriving DecidableEq

/-- Effect of the UPDATE statement of `update_achievement` on one row: the
`WHERE id = ? AND user_id = ?` clause selects, the SET clause applies every
submitted field (serializing the list fields). -/
def applyAchievementUpdate (uid aid : Nat) (u : AchievementUpdate)
    (r : AchRow) : AchRow :=
  if r.id == aid && r.user_id == uid then
    { r with
      core_task := u.core_task
      impact_metric := u.impact_metric
      skills_used := some (serializeListField u.skills_used)
      tags := some (serializeListField u.tags)
      company := u.company
      role := u.role
      year := u.year
      verification_level := u.verification_level }
  else r

/-- app/routes.py `update_achievement` (lines 242-296): precheck
`SELECT ... WHERE id = ? AND user_id = ?`, 404 if absent; then the UPDATE
applying every submitted field; then `SELECT ... WHERE id = ?` to return
the row.  The pair is (handler outcome, table afterwards). -/
def updateAchievement (uid aid : Nat) (u : AchievementUpdate)
    (db : List AchRow) : Except HErr AchRow × List AchRow :=
  match db.find? (fun r => r.id == aid && r.user_id == uid) with
  | none => (.error .notFound, db)
  | some _ =>
    let db' := db.map (applyAchievementUpdate uid aid u)
    match db'.find? (fun r => r.id == aid) with
    | some row => (.ok row, db')
    | none => (.error .internal, db')

/-- app/routes.py `delete_achievement` (lines 299-319): the same ownership
precheck, then `DELETE ... WHERE id = ? AND user_id = ?`; on success only an
acknowledgement message is returned, none of the row data. -/
def deleteAchievement (uid aid : Nat) (db : List AchRow) :
    Except HErr Unit × List AchRow :=
  match db.find? (fun r => r.id == aid && r.user_id == uid) with
  | none => (.error .notFound, db)
  | some _ =>
    (.ok (), db.filter (fun r => !(r.id == aid && r.user_id == uid)))

/-- Row of the `applications` table.  `applied_at` carries the wall-clock
reading of the update that set it (NULL until then); `updated_at` carries a
database clock reading. -/
structure AppRow where
  id : Nat
  user_id : Nat
  job_title : Option String
  company : Option String
  job_url : Option String
  job_description : Option String
  status : Option String
  match_score : Option Int
  notes : Option String
  applied_at : Option Nat
  created_at : Nat
  updated_at : Nat
deriving DecidableEq

/-- app/schemas.py `ApplicationUpdate` after request validation (`status`
defaults to "saved" when the field is omitted; an explicit null arrives as
`none`). -/
structure ApplicationUpdate where
  job_title : Option String
  company : Option String
  job_url : Option String
  job_description : Option String
  status : Option String
  match_score : Option Int
  notes : Option String
deriving DecidableEq

/-- The CHECK constraint on `applications.status`: NULL passes, any other
value must be one of the five pipeline states. -/
def validStatusCheck (s : Option String) : Bool :=
  match s with
  | none => true
  | some v => ["saved", "applied", "interview", "offer", "rejected"].contains v

/-- Effect of the `update_application` UPDATE statement on one row:
`applied_at` is `datetime.utcnow().isoformat()` when the submitted status
equals "applied" and SQL NULL otherwise, and the SET clause applies every
field with `applied_at = COALESCE(?, applied_at)` and
`updated_at = CURRENT_TIMESTAMP`, scoped by `id AND user_id`.  `nowIso` is
the Python clock reading, `dbNow` the database clock reading. -/
def applyApplicationUpdate (uid aid : Nat) (u : ApplicationUpdate)
    (nowIso dbNow : Nat) (r : AppRow) : AppRow :=
  let appliedParam : Option Nat :=
    if u.status = some ("applied") then some nowIso else none
  if r.id == aid && r.user_id == uid then
    { r with
      job_title := u.job_title
      company := u.company
      job_url := u.job_url
      job_description := u.job_description
      status := u.status
      match_score := u.match_score
      notes := u.notes
      applied_at := match appliedParam with
                    | some t => some t
                    | none => r.applied_at
      updated_at := dbNow }
  else r

/-- app/routes.py `update_application` (lines 366-407): ownership precheck
(404), then the UPDATE, then `SELECT ... WHERE id = ?` to return the row; a
status outside the CHECK constraint makes the UPDATE statement fail (a
generic server error), leaving the table unchanged. -/
def updateApplication (uid aid : Nat) (u : ApplicationUpdate)
    (nowIso dbNow : Nat) (db : List AppRow) : Except HErr AppRow × List AppRow :=
  match db.find? (fun r => r.id == aid && r.user_id == uid) with
  | none => (.error .notFound, db)
  | some _ =>
    if validStatusCheck u.status then
      let db' := db.map (applyApplicationUpdate uid aid u nowIso dbNow)
      match db'.find? (fun r => r.id == aid) with
      | some row => (.ok row, db')
      | none => (.error .internal, db')
    else (.error .checkViolation, db)

/-- Row of the `profiles` table. -/
structure ProfileRow where
  id : Nat
  user_id : Nat
  name : Option String
  email : Option String
  phone : Option String
  location : Option String
  linkedin : Option String
  website : Option String
  summary : Option String
  branding_color : Option String
  branding_font : Option String
  target_roles : Option String
  user_values : Option String
  created_at : Nat
  updated_at : Nat
deriving DecidableEq

/-- app/schemas.py `ProfileUpdate` after request validation. -/
structure ProfileUpdate where
  name : Option String
  email : Option String
  phone : Option String
  location : Option String
  linkedin : Option String
  website : Option String
  summary : Option String
  branding_color : Option String
  branding_font : Option String
  target_roles : Option (List String)
  values : Option (List String)
deriving DecidableEq

/-- Effect of the `update_profile` UPDATE statement on one row: scoped by
`user_id`, applying every field, serializing the two list fields and
setting `updated_at = CURRENT_TIMESTAMP`. -/
def applyProfileUpdate (uid : Nat) (u : ProfileUpdate) (dbNow : Nat)
    (r : ProfileRow) : ProfileRow :=
  if r.user_id == uid then
    { r with
      name := u.name
      email := u.email
      phone := u.phone
      location := u.location
      linkedin := u.linkedin
      website := u.website
      summary := u.summary
      branding_color := u.branding_color
      branding_font := u.branding_font
      target_roles := some (serializeListField u.target_roles)
      user_values := some (serializeListField u.values)
      updated_at := dbNow }
  else r

/-- app/routes.py `update_profile` (lines 112-160), persistence part. -/
def updateProfile (uid : Nat) (u : ProfileUpdate) (dbNow : Nat)
    (db : List ProfileRow) : List ProfileRow :=
  db.map (applyProfileUpdate uid u dbNow)

/- ----------------------------------------------------------------------
   Chat log and the history fed to the model: app/routes.py `chat`
   (lines 433-478) and app/ai_service.py `chat_with_interviewer`
   (lines 119-153).
   ---------------------------------------------------------------------- -/

/-- Row of the `chat_messages` table. -/
structure ChatRow where
  id : Nat
  user_id : Nat
  role : String
  content : String
  created_at : Nat
deriving DecidableEq

/-- The history query of the chat endpoint (app/routes.py lines 439-443):
`SELECT ... WHERE user_id = ? ORDER BY created_at ASC LIMIT 20` — the
caller's messages, oldest first, at most twenty. -/
def chatHistoryQuery (db : List ChatRow) (uid : Nat) : List ChatRow :=
  (((db.filter (fun m => m.user_id == uid)).insertionSort
      (fun a b => a.created_at ≤ b.created_at)).take 20)

/-- The read-then-log step of the chat endpoint: the history is read first,
then the incoming user message is inserted (app/routes.py lines 438-450).
Returns (history rows handed to the adapter, table after the insert). -/
def chatReadAndLog (uid : Nat) (msg : String) (newId t1 : Nat)
    (db : List ChatRow) : List ChatRow × List ChatRow :=
  (chatHistoryQuery db uid,
   db ++ [{ id := newId, user_id := uid, role := ("user"), content := msg,
            created_at := t1 }])

/-- One message of the Gemini conversation transcript. -/
structure GMsg where
  role : String
  parts : String
deriving DecidableEq

/-- The interviewer system prompt and the canned model acknowledgement
(app/ai_service.py lines 72-96 and 128-129).  Their text takes no part in
any claim; stand-ins keep the transcript structure faithful. -/
def interviewerPreamble : List GMsg :=
  [{ role := ("user"), parts := ("<INTERVIEWER_SYSTEM_PROMPT>") },
   { role := ("model"),
     parts := ("I understand. I will help extract achievements with specific metrics from the work experience.") }]

/-- app/ai_service.py `chat_with_interviewer`, transcript construction
(lines 128-137): the preamble, then each stored row replayed with role
"user" or "model", and the new user message appended last;
`start_chat(history=messages[:-1])` receives everything but the new
message, which goes through `send_message`.  Returns (history handed to
`start_chat`, message sent). -/
def buildGeminiMessages (history : List ChatRow) (userMessage : String) :
    List GMsg × String :=
  (interviewerPreamble ++
     history.map (fun m =>
       { role := if m.role == ("user") then ("user") else ("model"),
         parts := m.content }),
   userMessage)

/- ----------------------------------------------------------------------
   General JSON values, for the AI adapter's response scraping.  Numbers
   keep their source token (the integer/decimal digits); nothing in the
   claims depends on numeric value beyond integrality.
   ---------------------------------------------------------------------- -/

mutual

/-- JSON value.  Arrays and objects are mutually inductive lists so that
decidable equality stays kernel-computable. -/
inductive JVal where
  | null : JVal
  | jbool : Bool → JVal
  | jnum : Chars → JVal
  | jstr : Chars → JVal
  | jarr : JList → JVal
  | jobj : JObj → JVal
deriving DecidableEq

/-- Items of a JSON array. -/
inductive JList where
  | nil : JList
  | cons : JVal → JList → JList
deriving DecidableEq

/-- Fields of a JSON object, in source order. -/
inductive JObj where
  | nil : JObj
  | cons : Chars → JVal → JObj → JObj
deriving DecidableEq

end

/-- A JSON number token: optional minus, digits, optional fraction,
optional exponent.  Returns the token and the remaining input. -/
def parseNumberTok (cs : Chars) : Option (Chars × Chars) :=
  let (neg, cs1) :=
    match cs with
    | '-' :: rest => (['-'], rest)
    | _ => (([] : Chars), cs)
  let intPart := cs1.takeWhile isDigitChar
  if intPart = [] then none
  else
    let cs2 := cs1.drop intPart.length
    let (fracPart, cs3) :=
      match cs2 with
      | '.' :: rest =>
        let d := rest.takeWhile isDigitChar
        if d = [] then (([] : Chars), cs2) else ('.' :: d, rest.drop d.length)
      | _ => (([] : Chars), cs2)
    let (expPart, cs4) :=
      match cs3 with
      | e :: rest =>
        if e = 'e' ∨ e = 'E' then
          let (sgn, rest2) :=
            match rest with
            | '+' :: r => ((['+'] : Chars), r)
            | '-' :: r => ((['-'] : Chars), r)
            | _ => (([] : Chars), rest)
          let d := rest2.takeWhile isDigitChar
          if d = [] then (([] : Chars), cs3)
          else (e :: (sgn ++ d), rest2.drop d.length)
        else (([] : Chars), cs3)
      | [] => (([] : Chars), cs3)
    some (neg ++ intPart ++ fracPart ++ expPart, cs4)

mutual

/-- Recursive-descent `json.loads` value scanner.  The fuel bounds nesting
depth only; the top-level entry supplies the input length, which always
suffices because every descent first consumes at least one character. -/
def parseJsonV : Nat → Chars → Option (JVal × Chars)
  | 0, _ => none
  | fuel + 1, cs =>
    match skipWs cs with
    | [] => none
    | c :: rest =>
      if c = '"' then
        (parseStringBody rest).map (fun pr => (JVal.jstr pr.1, pr.2))
      else if c = '\x7b' then
        match skipWs rest with
        | '\x7d' :: rest2 => some (JVal.jobj .nil, rest2)
        | _ => (parseObjMembers fuel rest).map (fun pr => (JVal.jobj pr.1, pr.2))
      else if c = '[' then
        match skipWs rest with
        | ']' :: rest2 => some (JVal.jarr .nil, rest2)
        | _ => (parseArrItems fuel rest).map (fun pr => (JVal.jarr pr.1, pr.2))
      else if c = 't' then
        match rest with
        | 'r' :: 'u' :: 'e' :: rest2 => some (JVal.jbool true, rest2)
        | _ => none
      else if c = 'f' then
        match rest with
        | 'a' :: 'l' :: 's' :: 'e' :: rest2 => some (JVal.jbool false, rest2)
        | _ => none
      else if c = 'n' then
        match rest with
        | 'u' :: 'l' :: 'l' :: rest2 => some (JVal.null, rest2)
        | _ => none
      else if c = '-' ∨ isDigitChar c then
        (parseNumberTok (c :: rest)).map (fun pr => (JVal.jnum pr.1, pr.2))
      else none

/-- Members of a non-empty JSON object, after the opening brace, up to and
past the closing brace. -/
def parseObjMembers : Nat → Chars → Option (JObj × Chars)
  | 0, _ => none
  | fuel + 1, cs =>
    match skipWs cs with
    | '"' :: rest =>
      match parseStringBody rest with
      | none => none
      | some (key, rest2) =>
        match skipWs rest2 with
        | ':' :: rest3 =>
          match parseJsonV fuel rest3 with
          | none => none
          | some (v, rest4) =>
            match skipWs rest4 with
            | ',' :: rest5 =>
              match parseObjMembers fuel rest5 with
              | some (t, rest6) => some (.cons key v t, rest6)
              | none => none
            | '\x7d' :: rest5 => some (.cons key v .nil, rest5)
            | _ => none
        | _ => none
    | _ => none

/-- Items of a non-empty JSON array, after the opening bracket, up to and
past the closing bracket. -/
def parseArrItems : Nat → Chars → Option (JList × Chars)
  | 0, _ => none
  | fuel + 1, cs =>
    match parseJsonV fuel cs with
    | none => none
    | some (v, rest) =>
      match skipWs rest with
      | ',' :: rest2 =>
        match parseArrItems fuel rest2 with
        | some (t, rest3) => some (.cons v t, rest3)
        | none => none
      | ']' :: rest2 => some (.cons v .nil, rest2)
      | _ => none

end

/-- `json.loads` on a full document: one value, optionally surrounded by
whitespace.  (Like the list-field decoder, lone-surrogate escapes are
rejected; no reply the encoder side of this system produces contains
them.) -/
def loadsGeneral (cs : Chars) : Option JVal :=
  match parseJsonV (cs.length + 1) cs with
  | some (v, rest) => if skipWs rest = [] then some v else none
  | none => none

/-- Python dict lookup for a key of a parsed JSON object: with duplicate
keys the later binding wins, as in `json.loads`. -/
def jsonLookup : JObj → Chars → Option JVal
  | .nil, _ => none
  | .cons k v t, key =>
    match jsonLookup t key with
    | some w => some w
    | none => if k = key then some v else none

/- ----------------------------------------------------------------------
   AI orchestration adapter: app/ai_service.py.  The model call itself is
   external; the functions below embed what the adapter does to the reply
   text it gets back.
   ---------------------------------------------------------------------- -/

/-- The search `re.search(r'\x7b.*\x7d', text, re.DOTALL)` used by
`tailor_resume` and `extract_profile_from_resume`: with the greedy `.*` and
DOTALL this matches from the first opening brace to the last closing brace
after it, or fails when no such span exists. -/
def extractFirstJsonObject (cs : Chars) : Option Chars :=
  let pre := cs.takeWhile (fun c => c ≠ '\x7b')
  let fromBrace := cs.drop pre.length
  match fromBrace with
  | [] => none
  | _ :: _ =>
    let revSuf := fromBrace.reverse.takeWhile (fun c => c ≠ '\x7d')
    let spanLen := fromBrace.length - revSuf.length
    if spanLen ≥ 2 then some (fromBrace.take spanLen) else none

/-- Whitespace of the `re` module's `\s` class (ASCII part). -/
def isRegexWs (c : Char) : Bool :=
  c = ' ' || (9 ≤ c.toNat && c.toNat ≤ 13)

/-- Whitespace stripped by Python `str.strip()` (ASCII part). -/
def isPyStripWs (c : Char) : Bool :=
  c = ' ' || (9 ≤ c.toNat && c.toNat ≤ 13)

/-- The backtick character. -/
def btick : Char := Char.ofNat 96

/-- Literal opener of a fenced JSON block. -/
def fenceOpen : Chars := [btick, btick, btick, 'j', 's', 'o', 'n']

/-- Literal fence closer. -/
def fenceClose : Chars := [btick, btick, btick]

/-- Lazy scan of `(\x7b.*?\x7d)\s*` followed by the closing fence, starting
just inside the braces: `acc` holds the characters matched by `.*?` so far,
and the shortest extension whose closing brace is followed by optional
whitespace and the fence wins.  Returns (group 1, group 0 suffix after
group 1). -/
def fencedBodyScan : Chars → Chars → Option (Chars × Chars)
  | _, [] => none
  | acc, c :: rest =>
    if c = '\x7d' then
      let ws2 := rest.takeWhile isRegexWs
      let afterWs := rest.drop ws2.length
      if fenceClose.isPrefixOf afterWs then
        some ('\x7b' :: (acc ++ ['\x7d']), ws2 ++ fenceClose)
      else fencedBodyScan (acc ++ ['\x7d']) rest
    else fencedBodyScan (acc ++ [c]) rest

/-- Attempt to match `re.search(r'```json\s*(\x7b.*?\x7d)\s*```', ., DOTALL)`
with the match anchored at the head of the input: the literal opener, greedy
whitespace (deterministic, since a brace is not whitespace), the lazily
shortest brace span, whitespace, and the closing fence.  Returns
(group 0, group 1). -/
def matchFencedAt (cs : Chars) : Option (Chars × Chars) :=
  if fenceOpen.isPrefixOf cs then
    let afterOpen := cs.drop fenceOpen.length
    let ws1 := afterOpen.takeWhile isRegexWs
    let afterWs := afterOpen.drop ws1.length
    match afterWs with
    | '\x7b' :: body =>
      match fencedBodyScan [] body with
      | some (g1, closePart) => some (fenceOpen ++ ws1 ++ g1 ++ closePart, g1)
      | none => none
    | _ => none
  else none

/-- Leftmost match of the fenced-JSON pattern, scanning start positions
left to right as `re.search` does. -/
def findFencedJson : Chars → Option (Chars × Chars)
  | [] => none
  | c :: rest =>
    match matchFencedAt (c :: rest) with
    | some r => some r
    | none => findFencedJson rest

/-- Python `str.replace(old, new)` for a non-empty `old`: replace every
non-overlapping occurrence, scanning left to right.  The fuel only bounds
the scan length; `replaceAll` supplies the input length. -/
def replaceAllF : Nat → Chars → Chars → Chars → Chars
  | 0, hay, _, _ => hay
  | fuel + 1, hay, pat, rep =>
    match hay with
    | [] => []
    | c :: rest =>
      if pat ≠ [] ∧ pat.isPrefixOf hay then
        rep ++ replaceAllF fuel (hay.drop pat.length) pat rep
      else c :: replaceAllF fuel rest pat rep

/-- Python `str.replace` (total occurrences). -/
def replaceAll (hay pat rep : Chars) : Chars :=
  replaceAllF hay.length hay pat rep

/-- Python `str.strip()`. -/
def stripPy (cs : Chars) : Chars :=
  ((cs.dropWhile isPyStripWs).reverse.dropWhile isPyStripWs).reverse

/-- The `"\n\n✓ Achievement captured!"` confirmation suffix
(app/ai_service.py line 149). -/
def capturedSuffix : Chars := ("\n\n✓ Achievement captured!").data

/-- The validated form of app/schemas.py `AchievementCreate`. -/
structure AchievementCreateM where
  core_task : String
  impact_metric : Option String
  skills_used : Option (List String)
  tags : Option (List String)
  company : Option String
  role : Option String
  year : Option Int
  verification_level : Option String
deriving DecidableEq

/-- All items of a JSON array as Lean strings, when every item is a JSON
string. -/
def jlistStrings : JList → Option (List String)
  | .nil => some []
  | .cons (.jstr s) t => (jlistStrings t).map (fun l => String.mk s :: l)
  | .cons _ _ => none

/-- All items of a JSON array as objects, when every item is a JSON
object. -/
def jlistObjs : JList → Option (List JObj)
  | .nil => some []
  | .cons (.jobj o) t => (jlistObjs t).map (fun l => o :: l)
  | .cons _ _ => none

/-- A JSON number token as an integer, when it has no fraction or
exponent. -/
def jnumAsInt (tok : Chars) : Option Int :=
  match tok with
  | '-' :: ds =>
    if ds ≠ [] ∧ ds.all isDigitChar then
      (parseNatStr ds).map (fun n => -(n : Int))
    else none
  | ds =>
    if ds ≠ [] ∧ ds.all isDigitChar then (parseNatStr ds).map (fun n => (n : Int))
    else none

/-- Optional string field: missing and JSON null give the default, a JSON
string gives the string, anything else fails validation. -/
def optStrField (fields : JObj) (key : Chars) (dflt : Option String) :
    Option (Option String) :=
  match jsonLookup fields key with
  | none => some dflt
  | some .null => some none
  | some (.jstr s) => some (some (String.mk s))
  | some _ => none

/-- Optional list-of-strings field with default `[]`. -/
def optStrListField (fields : JObj) (key : Chars) : Option (Option (List String)) :=
  match jsonLookup fields key with
  | none => some (some [])
  | some .null => some none
  | some (.jarr items) => (jlistStrings items).map (fun l => some l)
  | some _ => none

/-- Pydantic validation of `AchievementCreate(**payload)` for a mapping
payload: `core_task` is a required string, the remaining fields are
optional with the schema defaults; a field of the wrong shape raises
`ValidationError` (a `ValueError`), here `none`. -/
def validateAchievementCreate (fields : JObj) : Option AchievementCreateM :=
  match jsonLookup fields (("core_task").data) with
  | some (.jstr ct) =>
    match optStrField fields (("impact_metric").data) none,
          optStrListField fields (("skills_used").data),
          optStrListField fields (("tags").data),
          optStrField fields (("company").data) none,
          optStrField fields (("role").data) none,
          optStrField fields (("verification_level").data) (some ("Medium")) with
    | some im, some su, some tg, some co, some ro, some vl =>
      match jsonLookup fields (("year").data) with
      | none => some { core_task := String.mk ct, impact_metric := im,
                       skills_used := su, tags := tg, company := co, role := ro,
                       year := none, verification_level := vl }
      | some .null => some { core_task := String.mk ct, impact_metric := im,
                             skills_used := su, tags := tg, company := co, role := ro,
                             year := none, verification_level := vl }
      | some (.jnum tok) =>
        (jnumAsInt tok).map (fun y =>
          { core_task := String.mk ct, impact_metric := im,
            skills_used := su, tags := tg, company := co, role := ro,
            year := some y, verification_level := vl })
      | some _ => none
    | _, _, _, _, _, _ => none
  | _ => none

/-- Outcome of running Python code that may raise an exception nobody
catches. -/
inductive PyRaise where
  | typeErr
deriving DecidableEq

/-- app/ai_service.py `chat_with_interviewer`, reply-parsing stage
(lines 141-153): search for a fenced JSON block; on a hit, `json.loads` the
group; when the object carries an `achievement_extracted` key, build
`AchievementCreate(**payload)`, strip the whole block from the visible
reply (`str.replace` plus `strip`) and append the confirmation suffix.
`json.JSONDecodeError` and `ValueError` (pydantic's `ValidationError`) are
swallowed, returning the raw reply with no draft — but a payload that is
not a mapping makes the `**` application raise `TypeError`, which nothing
catches. -/
def chatParseReply (replyText : Chars) : Except PyRaise (Chars × Option AchievementCreateM) :=
  match findFencedJson replyText with
  | none => .ok (replyText, none)
  | some (g0, g1) =>
    match loadsGeneral g1 with
    | none => .ok (replyText, none)
    | some v =>
      match v with
      | .jobj fields =>
        match jsonLookup fields (("achievement_extracted").data) with
        | none => .ok (replyText, none)
        | some (.jobj payload) =>
          match validateAchievementCreate payload with
          | some a =>
            .ok (stripPy (replaceAll replyText g0 []) ++ capturedSuffix, some a)
          | none => .ok (replyText, none)
        | some _ => .error .typeErr
      | _ => .ok (replyText, none)

/-- The degraded default payload of `tailor_resume` on a reply with no
parseable JSON (app/ai_service.py lines 205-210), as the dict the handler
would splat into `TailorResponse`. -/
def defaultTailorPayload : JVal :=
  .jobj (.cons (("tailored_summary").data)
              (.jstr (("Unable to generate tailored summary. Please try again.").data))
        (.cons (("selected_achievements").data) (.jarr .nil)
        (.cons (("match_score").data) (.jnum [('0')])
        (.cons (("suggestions").data)
              (.jarr (.cons (.jstr (("Try providing more details in the job description").data)) .nil))
        .nil))))

/-- The fixed "not configured" payload returned when no API key is present
(app/ai_service.py lines 161-167). -/
def notConfiguredTailorPayload : JVal :=
  .jobj (.cons (("tailored_summary").data)
              (.jstr (("AI features require a Gemini API key.").data))
        (.cons (("selected_achievements").data) (.jarr .nil)
        (.cons (("match_score").data) (.jnum [('0')])
        (.cons (("suggestions").data)
              (.jarr (.cons (.jstr (("Configure GEMINI_API_KEY to enable AI features").data)) .nil))
        .nil))))

/-- app/ai_service.py `tailor_resume`, reply-parsing stage (lines 195-210):
without an API key the fixed payload is returned before any model call;
otherwise the first brace span of the reply is extracted, a successful
`json.loads` of it is returned as-is (whatever its shape), and a missing
span or a parse failure falls through to the degraded default. -/
def tailorResume (configured : Bool) (replyText : Chars) : JVal :=
  if !configured then notConfiguredTailorPayload
  else
    match extractFirstJsonObject replyText with
    | some span =>
      match loadsGeneral span with
      | some v => v
      | none => defaultTailorPayload
    | none => defaultTailorPayload

/-- The validated form of app/schemas.py `TailorResponse`. -/
structure TailorResponseModel where
  tailored_summary : String
  selected_achievements : List JObj
  match_score : Int
  suggestions : List String
deriving DecidableEq

/-- Pydantic validation performed by `TailorResponse(**result)` in the
`/tailor` handler (app/routes.py line 542): `tailored_summary` a string,
`selected_achievements` a list of dicts, `match_score` an integer,
`suggestions` a list of strings.  A result of any other shape raises
`ValidationError`, which no handler catches — FastAPI surfaces it as a
server error. -/
def validateTailorResponse (v : JVal) : Option TailorResponseModel :=
  match v with
  | .jobj fields =>
    match jsonLookup fields (("tailored_summary").data),
          jsonLookup fields (("selected_achievements").data),
          jsonLookup fields (("match_score").data),
          jsonLookup fields (("suggestions").data) with
    | some (.jstr ts), some (.jarr sel), some (.jnum tok), some (.jarr sug) =>
      match jnumAsInt tok, jlistObjs sel, jlistStrings sug with
      | some ms, some selObjs, some sugStrs =>
        some { tailored_summary := String.mk ts, selected_achievements := selObjs,
               match_score := ms, suggestions := sugStrs }
      | _, _, _ => none
    | _, _, _, _ => none
  | _ => none

/-- app/ai_service.py `extract_profile_from_resume`, reply-parsing stage
(lines 53-62): the same brace-span extraction; a successful `json.loads`
is returned as-is, anything else degrades to the fixed error payload. -/
def extractProfileParse (replyText : Chars) : JVal :=
  match extractFirstJsonObject replyText with
  | some span =>
    match loadsGeneral span with
    | some v => v
    | none => .jobj (.cons (("error").data)
        (.jstr (("Unable to extract profile information. Please try again.").data)) .nil)
  | none => .jobj (.cons (("error").data)
      (.jstr (("Unable to extract profile information. Please try again.").data)) .nil)

/- ======================================================================
   Theorems.  Shared helper lemmas first, then one theorem per claim.
   ====================================================================== -/

/-- takeWhile over an append whose left part satisfies the predicate. -/
theorem takeWhile_append_all {p : Char → Bool} (l r : Chars)
    (h : ∀ c ∈ l, p c = true) :
    (l ++ r).takeWhile p = l ++ r.takeWhile p := by
  induction l with
  | nil => simp
  | cons c t ih =>
    simp [List.takeWhile_cons,
      h c (List.mem_cons_self c t), ih (fun x hx => h x (List.mem_cons_of_mem c hx))]

/-- dropWhile over an append whose left part satisfies the predicate. -/
theorem dropWhile_append_all {p : Char → Bool} (l r : Chars)
    (h : ∀ c ∈ l, p c = true) :
    (l ++ r).dropWhile p = r.dropWhile p := by
  induction l with
  | nil => simp
  | cons c t ih =>
    simp only [List.cons_append, List.dropWhile_cons,
      h c (List.mem_cons_self c t), if_true,
      ih (fun x hx => h x (List.mem_cons_of_mem c hx))]

/-- A lowercase-hex character is not the separator. -/
theorem isHexLower_ne_colon {c : Char} (h : isHexLower c = true) : c ≠ ':' := by
  intro hc
  subst hc
  simp [isHexLower] at h

/-- C3: for every password and every salt over the `token_hex` alphabet,
verifying a password against its own freshly computed hash succeeds: the
hash is `salt:digest`, the verifier splits at the first separator — which is
the one the hash inserted, since the salt contains none — and recomputes the
same digest.  The SHA-256 digest is an arbitrary function parameter. -/
theorem claim_C3_verify_of_hash (sha256hex : Chars → Chars) (salt password : Chars)
    (hsalt : ∀ c ∈ salt, isHexLower c = true) :
    verify_password sha256hex password (get_password_hash sha256hex salt password) = true := by
  have hne : ∀ c ∈ salt, (fun c => decide (c ≠ ':')) c = true := by
    intro c hc
    simpa using isHexLower_ne_colon (hsalt c hc)
  unfold verify_password get_password_hash
  have hmem : ':' ∈ salt ++ ':' :: sha256hex (salt ++ password) := by
    simp
  rw [if_pos hmem]
  rw [takeWhile_append_all _ _ hne, dropWhile_append_all _ _ hne]
  simp

/-- C3 witness: a concrete salt, password and digest function. -/
theorem claim_C3_witness :
    (∀ c ∈ (("00ff").data), isHexLower c = true) ∧
      verify_password (fun cs => cs ++ [('x')]) (("pw").data)
        (get_password_hash (fun cs => cs ++ [('x')]) (("00ff").data) (("pw").data)) = true :=
  ⟨by decide,
   claim_C3_verify_of_hash (fun cs => cs ++ [('x')]) (("00ff").data) (("pw").data) (by decide)⟩

/-- C5: registration with an already-registered email fails with the 400
conflict and inserts nothing, and the handler preserves email uniqueness:
whenever the users table has no duplicate emails, it still has none after
any registration attempt.  (The schema's `email TEXT UNIQUE` backs the same
invariant at the engine level.) -/
theorem claim_C5_register_conflict (email hashed : String) (db : List UserRow) :
    ((∃ u ∈ db, u.email = email) →
      register email hashed db = (.error .badRequest, db)) ∧
    ((db.map (fun u => u.email)).Nodup →
      ((register email hashed db).2.map (fun u => u.email)).Nodup) := by
  constructor
  · rintro ⟨u, hu, he⟩
    have hfind : (db.find? (fun u => u.email == email)).isSome = true := by
      rw [List.find?_isSome]
      exact ⟨u, hu, by simp [he]⟩
    unfold register
    obtain ⟨v, hv⟩ := Option.isSome_iff_exists.mp hfind
    rw [hv]
  · intro hnodup
    unfold register
    cases hfind : db.find? (fun u => u.email == email) with
    | some u => exact hnodup
    | none =>
      have hnot : email ∉ db.map (fun u => u.email) := by
        intro hmem
        obtain ⟨u, hu, he⟩ := List.mem_map.mp hmem
        have := List.find?_eq_none.mp hfind u hu
        simp [he] at this
      simp only [List.map_append, List.map_cons, List.map_nil]
      exact List.Nodup.append hnodup (List.nodup_singleton email)
        (by
          intro a ha hb
          simp only [List.mem_singleton] at hb
          exact hnot (hb ▸ ha))

/-- C5 witness: duplicate registration on a one-user table. -/
theorem claim_C5_witness :
    (∃ u ∈ [({ id := 1, email := ("a@b.c"), hashed_password := ("s:h") } : UserRow)],
        u.email = ("a@b.c")) ∧
    register ("a@b.c") ("s2:h2")
        [{ id := 1, email := ("a@b.c"), hashed_password := ("s:h") }] =
      (.error .badRequest,
        [{ id := 1, email := ("a@b.c"), hashed_password := ("s:h") }]) := by
  refine ⟨⟨_, List.mem_singleton_self _, rfl⟩, ?_⟩
  exact (claim_C5_register_conflict ("a@b.c") ("s2:h2")
    [{ id := 1, email := ("a@b.c"), hashed_password := ("s:h") }]).1
    ⟨_, List.mem_singleton_self _, rfl⟩

/-- C4: an update or delete of an achievement owned by another user fails
with the 404 and leaves the table untouched; both statements carry the
`id = ? AND user_id = ?` ownership conjunction, so the precheck cannot find
the row and the handler raises before returning any data (the error carries
none of the owner's fields). -/
theorem claim_C4_cross_user_404 (a b aid : Nat) (u : AchievementUpdate)
    (db : List AchRow) (hab : a ≠ b)
    (hown : ∀ r ∈ db, r.id = aid → r.user_id = b) :
    updateAchievement a aid u db = (.error .notFound, db) ∧
    deleteAchievement a aid db = (.error .notFound, db) := by
  have hfind : db.find? (fun r => r.id == aid && r.user_id == a) = none := by
    rw [List.find?_eq_none]
    intro r hr hpred
    simp only [Bool.and_eq_true, beq_iff_eq] at hpred
    exact hab (hpred.2.symm.trans (hown r hr hpred.1))
  constructor
  · unfold updateAchievement
    rw [hfind]
  · unfold deleteAchievement
    rw [hfind]

/-- C4 witness: user 1 attacks user 2's achievement 7. -/
theorem claim_C4_witness :
    updateAchievement 1 7
        { core_task := ("t2"), impact_metric := none, skills_used := none,
          tags := none, company := none, role := none, year := none,
          verification_level := none }
        [{ id := 7, user_id := 2, core_task := ("t"), impact_metric := none,
           skills_used := none, tags := none, company := none, role := none,
           year := none, verification_level := none, created_at := 0 }] =
      (.error .notFound,
        [{ id := 7, user_id := 2, core_task := ("t"), impact_metric := none,
           skills_used := none, tags := none, company := none, role := none,
           year := none, verification_level := none, created_at := 0 }]) ∧
    deleteAchievement 1 7
        [{ id := 7, user_id := 2, core_task := ("t"), impact_metric := none,
           skills_used := none, tags := none, company := none, role := none,
           year := none, verification_level := none, created_at := 0 }] =
      (.error .notFound,
        [{ id := 7, user_id := 2, core_task := ("t"), impact_metric := none,
           skills_used := none, tags := none, company := none, role := none,
           year := none, verification_level := none, created_at := 0 }]) :=
  claim_C4_cross_user_404 1 2 7
    { core_task := ("t2"), impact_metric := none, skills_used := none,
      tags := none, company := none, role := none, year := none,
      verification_level := none }
    [{ id := 7, user_id := 2, core_task := ("t"), impact_metric := none,
       skills_used := none, tags := none, company := none, role := none,
       year := none, verification_level := none, created_at := 0 }]
    (by decide) (by decide)

/-- A decimal rendering is never empty. -/
theorem natToStrAux_ne_nil (fuel n : Nat) : natToStrAux (fuel + 1) n ≠ [] := by
  unfold natToStrAux
  by_cases h : n < 10
  · simp [h]
  · simp [h]

/-- Digit characters are digits and carry their value. -/
theorem digitChar_spec : ∀ d, d < 10 →
    isDigitChar (digitChar d) = true ∧ (digitChar d).toNat = 48 + d := by
  decide

/-- The decimal rendering is all digits, and folding the digit values in
base 10 over it recovers the number (shifted under any accumulator). -/
theorem natToStrAux_spec (fuel : Nat) : ∀ n, n ≤ fuel →
    (natToStrAux fuel n).all isDigitChar = true ∧
    ∀ a, (natToStrAux fuel n).foldl (fun a c => a * 10 + (c.toNat - 48)) a =
          a * 10 ^ (natToStrAux fuel n).length + n := by
  induction fuel with
  | zero =>
    intro n hn
    have : n = 0 := Nat.le_zero.mp hn
    subst this
    exact ⟨rfl, fun a => by simp [natToStrAux]⟩
  | succ fuel ih =>
    intro n hn
    by_cases h : n < 10
    · constructor
      · simp [natToStrAux, h, (digitChar_spec n h).1]
      · intro a
        simp [natToStrAux, h, (digitChar_spec n h).2]
    · have hdiv : n / 10 ≤ fuel := by omega
      obtain ⟨ihall, ihfold⟩ := ih (n / 10) hdiv
      have hrw : natToStrAux (fuel + 1) n =
          natToStrAux fuel (n / 10) ++ [digitChar (n % 10)] := by
        simp only [natToStrAux]
        rw [if_neg h]
      constructor
      · rw [hrw, List.all_append, ihall]
        simp [(digitChar_spec (n % 10) (by omega)).1]
      · intro a
        rw [hrw, List.foldl_append, ihfold a]
        have h2 : (natToStrAux fuel (n / 10) ++ [digitChar (n % 10)]).length =
            (natToStrAux fuel (n / 10)).length + 1 := by simp
        rw [h2]
        simp only [List.foldl_cons, List.foldl_nil]
        rw [(digitChar_spec (n % 10) (by omega)).2]
        have h48 : 48 + n % 10 - 48 = n % 10 := by omega
        rw [h48, pow_succ]
        have hmod : n / 10 * 10 + n % 10 = n := by omega
        calc (a * 10 ^ (natToStrAux fuel (n / 10)).length + n / 10) * 10 + n % 10
            = a * (10 ^ (natToStrAux fuel (n / 10)).length * 10) +
              (n / 10 * 10 + n % 10) := by ring
          _ = _ := by rw [hmod]

/-- Python `int(str(n)) = n` on the subject strings the app mints. -/
theorem parseNatStr_natToStr (n : Nat) : parseNatStr (natToStr n) = some n := by
  obtain ⟨hall, hfold⟩ := natToStrAux_spec (n + 1) n (by omega)
  unfold parseNatStr natToStr
  rw [if_pos ⟨natToStrAux_ne_nil n n, hall⟩]
  have := hfold 0
  simp only [Nat.zero_mul, Nat.zero_add] at this
  rw [this]

/-- C6: lifecycle of a bearer token.  A token minted for user id `uid`
(stringified subject, expiry `issuedAt` plus the configured lifetime,
signed with the shared secret) and resolved before its expiry yields a user
row with id `uid`, provided such a user exists; resolving after expiry, a
signature mismatch, a missing subject, or a non-integer subject each
produce the 401 `credentials_exception`. -/
theorem claim_C6_token_lifecycle (mac : Chars → AuthPayload → Nat)
    (secret : Chars) (db : List AuthUserRow)
    (uid issuedAt lifetimeMin resolveAt : Nat) :
    ((∃ u ∈ db, u.id = uid) → resolveAt < issuedAt + lifetimeMin * 60 →
      ∃ u, get_current_user mac secret db resolveAt
            (create_access_token mac secret uid issuedAt lifetimeMin) = .ok u ∧
           u.id = uid) ∧
    (issuedAt + lifetimeMin * 60 < resolveAt →
      get_current_user mac secret db resolveAt
          (create_access_token mac secret uid issuedAt lifetimeMin) =
        .error .unauthorized) ∧
    (∀ t : AuthToken, t.sig ≠ mac secret t.payload →
      get_current_user mac secret db resolveAt t = .error .unauthorized) ∧
    (∀ t : AuthToken, t.payload.sub = none →
      get_current_user mac secret db resolveAt t = .error .unauthorized) ∧
    (∀ (t : AuthToken) (s : Chars), t.payload.sub = some s →
      parseNatStr s = none →
      get_current_user mac secret db resolveAt t = .error .unauthorized) := by
  refine ⟨?_, ?_, ?_, ?_, ?_⟩
  · rintro ⟨u, hu, huid⟩ hbefore
    have hfind : (db.find? (fun v => v.id == uid)).isSome = true := by
      rw [List.find?_isSome]
      exact ⟨u, hu, by simp [huid]⟩
    obtain ⟨v, hv⟩ := Option.isSome_iff_exists.mp hfind
    have hvid : v.id = uid := by
      have := List.find?_some hv
      simpa using this
    refine ⟨v, ?_, hvid⟩
    unfold get_current_user create_access_token jwtDecode
    simp only [if_pos rfl]
    rw [if_neg (by omega : ¬(issuedAt + lifetimeMin * 60 < resolveAt))]
    simp [parseNatStr_natToStr, hv]
  · intro hafter
    unfold get_current_user create_access_token jwtDecode
    simp [hafter]
  · intro t hsig
    unfold get_current_user jwtDecode
    rw [if_neg hsig]
  · intro t hsub
    unfold get_current_user jwtDecode
    by_cases hsig : t.sig = mac secret t.payload
    · rw [if_pos hsig]
      by_cases hexp : t.payload.exp < resolveAt
      · rw [if_pos hexp]
      · rw [if_neg hexp]
        simp [hsub]
    · rw [if_neg hsig]
  · intro t s hsub hparse
    unfold get_current_user jwtDecode
    by_cases hsig : t.sig = mac secret t.payload
    · rw [if_pos hsig]
      by_cases hexp : t.payload.exp < resolveAt
      · rw [if_pos hexp]
      · rw [if_neg hexp]
        simp [hsub, hparse]
    · rw [if_neg hsig]

/-- C6 witness: a concrete MAC, user table and clock values exercising the
happy path and the expired path. -/
theorem claim_C6_witness :
    ((∃ u ∈ [({ id := 3, email := ("a@b.c") } : AuthUserRow)], u.id = 3) ∧
      100 < 0 + 2 * 60) ∧
    (∃ u, get_current_user (fun s p => s.length + p.exp) (("k").data)
            [{ id := 3, email := ("a@b.c") }] 100
            (create_access_token (fun s p => s.length + p.exp) (("k").data) 3 0 2) =
          .ok u ∧ u.id = 3) ∧
    get_current_user (fun s p => s.length + p.exp) (("k").data)
        [{ id := 3, email := ("a@b.c") }] 1000
        (create_access_token (fun s p => s.length + p.exp) (("k").data) 3 0 2) =
      .error .unauthorized := by
  refine ⟨⟨⟨_, List.mem_singleton_self _, rfl⟩, by decide⟩, ?_, ?_⟩
  · exact (claim_C6_token_lifecycle (fun s p => s.length + p.exp) (("k").data)
      [{ id := 3, email := ("a@b.c") }] 3 0 2 100).1
      ⟨_, List.mem_singleton_self _, rfl⟩ (by decide)
  · exact (claim_C6_token_lifecycle (fun s p => s.length + p.exp) (("k").data)
      [{ id := 3, email := ("a@b.c") }] 3 0 2 1000).2.1 (by decide)

/-- The application UPDATE never changes a row's id. -/
theorem applyApplicationUpdate_id (uid aid : Nat) (u : ApplicationUpdate)
    (nowIso dbNow : Nat) (r : AppRow) :
    (applyApplicationUpdate uid aid u nowIso dbNow r).id = r.id := by
  unfold applyApplicationUpdate
  by_cases h : (r.id == aid && r.user_id == uid) = true
  · simp [h]
  · simp [h]

/-- The achievement UPDATE never changes a row's id. -/
theorem applyAchievementUpdate_id (uid aid : Nat) (u : AchievementUpdate)
    (r : AchRow) :
    (applyAchievementUpdate uid aid u r).id = r.id := by
  unfold applyAchievementUpdate
  by_cases h : (r.id == aid && r.user_id == uid) = true
  · simp [h]
  · simp [h]

/-- C1: `applied_at` maintenance by `update_application`.  First part: an
update whose submitted status is "applied", against a table in which the
target id belongs to the caller, succeeds and returns the row with
`applied_at` freshly set to the update's clock reading (in particular
non-null).  Second part: an update whose submitted status is anything other
than "applied" leaves every row's `applied_at` in the table untouched — on
the success path `COALESCE(NULL, applied_at)` keeps the old value, and on
the 404 and constraint-violation paths the table is not written at all.
The "subsequent update to interview leaves applied_at unchanged" example
is the second part applied after the first. -/
theorem claim_C1_applied_at (uid aid : Nat) (u : ApplicationUpdate)
    (nowIso dbNow : Nat) (db : List AppRow) :
    (u.status = some ("applied") →
      (∃ r ∈ db, r.id = aid ∧ r.user_id = uid) →
      (∀ r ∈ db, r.id = aid → r.user_id = uid) →
      ∃ row db', updateApplication uid aid u nowIso dbNow db = (.ok row, db') ∧
        row.applied_at = some nowIso) ∧
    (u.status ≠ some ("applied") →
      (updateApplication uid aid u nowIso dbNow db).2.map (fun r => r.applied_at) =
        db.map (fun r => r.applied_at)) := by
  constructor
  · rintro hst ⟨r, hr, hrid, hruid⟩ huniq
    have hfind : (db.find? (fun r => r.id == aid && r.user_id == uid)).isSome = true := by
      rw [List.find?_isSome]
      exact ⟨r, hr, by simp [hrid, hruid]⟩
    obtain ⟨w, hw⟩ := Option.isSome_iff_exists.mp hfind
    have hvalid : validStatusCheck u.status = true := by
      rw [hst]
      decide
    have hfind2 :
        ((db.map (applyApplicationUpdate uid aid u nowIso dbNow)).find?
          (fun r => r.id == aid)).isSome = true := by
      rw [List.find?_isSome]
      refine ⟨applyApplicationUpdate uid aid u nowIso dbNow r, List.mem_map_of_mem _ hr, ?_⟩
      simp [applyApplicationUpdate_id, hrid]
    obtain ⟨row, hrow⟩ := Option.isSome_iff_exists.mp hfind2
    refine ⟨row, db.map (applyApplicationUpdate uid aid u nowIso dbNow), ?_, ?_⟩
    · unfold updateApplication
      rw [hw]
      simp only [hvalid, if_true]
      rw [hrow]
    · rw [List.find?_map] at hrow
      obtain ⟨v, hv, hveq⟩ := Option.map_eq_some'.mp hrow
      have hvmem : v ∈ db := List.mem_of_find?_eq_some hv
      have hvid : v.id = aid := by
        have := List.find?_some hv
        simpa [applyApplicationUpdate_id] using this
      have hvuid : v.user_id = uid := huniq v hvmem hvid
      rw [← hveq]
      unfold applyApplicationUpdate
      simp [hvid, hvuid, hst]
  · intro hst
    have happ : ∀ r : AppRow,
        (applyApplicationUpdate uid aid u nowIso dbNow r).applied_at = r.applied_at := by
      intro r
      unfold applyApplicationUpdate
      by_cases h : (r.id == aid && r.user_id == uid) = true
      · simp [h, hst]
      · simp [h]
    unfold updateApplication
    cases hw : db.find? (fun r => r.id == aid && r.user_id == uid) with
    | none => rfl
    | some w =>
      by_cases hvalid : validStatusCheck u.status = true
      · simp only [hvalid, if_true]
        cases hrow : (db.map (applyApplicationUpdate uid aid u nowIso dbNow)).find?
            (fun r => r.id == aid) with
        | some row =>
          simp only [List.map_map]
          exact List.map_congr_left (fun r _ => happ r)
        | none =>
          simp only [List.map_map]
          exact List.map_congr_left (fun r _ => happ r)
      · simp only [hvalid]
        rfl

/-- C1 witness: a saved application is updated to "applied" (stamping
`applied_at` with the update's clock 50), then to "interview"; the stamp
survives unchanged in the table. -/
theorem claim_C1_witness :
    (∃ row db',
        updateApplication 1 4
          { job_title := some ("t"), company := none, job_url := none,
            job_description := none, status := some ("applied"),
            match_score := none, notes := none } 50 51
          [{ id := 4, user_id := 1, job_title := some ("t"), company := none,
             job_url := none, job_description := none, status := some ("saved"),
             match_score := none, notes := none, applied_at := none,
             created_at := 0, updated_at := 0 }] = (.ok row, db') ∧
        row.applied_at = some 50) ∧
    (updateApplication 1 4
        { job_title := some ("t"), company := none, job_url := none,
          job_description := none, status := some ("interview"),
          match_score := none, notes := none } 60 61
        [{ id := 4, user_id := 1, job_title := some ("t"), company := none,
           job_url := none, job_description := none, status := some ("applied"),
           match_score := none, notes := none, applied_at := some 50,
           created_at := 0, updated_at := 51 }]).2.map (fun r => r.applied_at) =
      [some 50] := by
  constructor
  · exact (claim_C1_applied_at 1 4
      { job_title := some ("t"), company := none, job_url := none,
        job_description := none, status := some ("applied"),
        match_score := none, notes := none } 50 51
      [{ id := 4, user_id := 1, job_title := some ("t"), company := none,
         job_url := none, job_description := none, status := some ("saved"),
         match_score := none, notes := none, applied_at := none,
         created_at := 0, updated_at := 0 }]).1 rfl
      ⟨_, List.mem_singleton_self _, rfl, rfl⟩
      (by decide)
  · have h := (claim_C1_applied_at 1 4
      { job_title := some ("t"), company := none, job_url := none,
        job_description := none, status := some ("interview"),
        match_score := none, notes := none } 60 61
      [{ id := 4, user_id := 1, job_title := some ("t"), company := none,
         job_url := none, job_description := none, status := some ("applied"),
         match_score := none, notes := none, applied_at := some 50,
         created_at := 0, updated_at := 51 }]).2 (by decide)
    rw [h]
    decide

/-- A successful achievement update returns the transformed version of the
first matching row and maps the transformer over the table. -/
theorem updateAchievement_ok (uid aid : Nat) (u : AchievementUpdate)
    (db : List AchRow)
    (hex : ∃ r ∈ db, r.id = aid ∧ r.user_id = uid)
    (huniq : ∀ r ∈ db, r.id = aid → r.user_id = uid) :
    ∃ v ∈ db, v.id = aid ∧ v.user_id = uid ∧
      updateAchievement uid aid u db =
        (.ok (applyAchievementUpdate uid aid u v),
         db.map (applyAchievementUpdate uid aid u)) := by
  obtain ⟨r, hr, hrid, hruid⟩ := hex
  have hfind : (db.find? (fun r => r.id == aid && r.user_id == uid)).isSome = true := by
    rw [List.find?_isSome]
    exact ⟨r, hr, by simp [hrid, hruid]⟩
  obtain ⟨w, hw⟩ := Option.isSome_iff_exists.mp hfind
  have hfind2 :
      ((db.map (applyAchievementUpdate uid aid u)).find?
        (fun r => r.id == aid)).isSome = true := by
    rw [List.find?_isSome]
    refine ⟨applyAchievementUpdate uid aid u r, List.mem_map_of_mem _ hr, ?_⟩
    simp [applyAchievementUpdate_id, hrid]
  obtain ⟨row, hrow⟩ := Option.isSome_iff_exists.mp hfind2
  rw [List.find?_map] at hrow
  obtain ⟨v, hv, hveq⟩ := Option.map_eq_some'.mp hrow
  have hvmem : v ∈ db := List.mem_of_find?_eq_some hv
  have hvid : v.id = aid := by
    have := List.find?_some hv
    simpa [applyAchievementUpdate_id] using this
  refine ⟨v, hvmem, hvid, huniq v hvmem hvid, ?_⟩
  unfold updateAchievement
  rw [hw]
  simp only []
  rw [List.find?_map, hv]
  simp [hveq]

/-- A successful application update returns the transformed version of the
first matching row and maps the transformer over the table. -/
theorem updateApplication_ok (uid aid : Nat) (u : ApplicationUpdate)
    (nowIso dbNow : Nat) (db : List AppRow)
    (hex : ∃ r ∈ db, r.id = aid ∧ r.user_id = uid)
    (huniq : ∀ r ∈ db, r.id = aid → r.user_id = uid)
    (hvalid : validStatusCheck u.status = true) :
    ∃ v ∈ db, v.id = aid ∧ v.user_id = uid ∧
      updateApplication uid aid u nowIso dbNow db =
        (.ok (applyApplicationUpdate uid aid u nowIso dbNow v),
         db.map (applyApplicationUpdate uid aid u nowIso dbNow)) := by
  obtain ⟨r, hr, hrid, hruid⟩ := hex
  have hfind : (db.find? (fun r => r.id == aid && r.user_id == uid)).isSome = true := by
    rw [List.find?_isSome]
    exact ⟨r, hr, by simp [hrid, hruid]⟩
  obtain ⟨w, hw⟩ := Option.isSome_iff_exists.mp hfind
  have hfind2 :
      ((db.map (applyApplicationUpdate uid aid u nowIso dbNow)).find?
        (fun r => r.id == aid)).isSome = true := by
    rw [List.find?_isSome]
    refine ⟨applyApplicationUpdate uid aid u nowIso dbNow r, List.mem_map_of_mem _ hr, ?_⟩
    simp [applyApplicationUpdate_id, hrid]
  obtain ⟨row, hrow⟩ := Option.isSome_iff_exists.mp hfind2
  rw [List.find?_map] at hrow
  obtain ⟨v, hv, hveq⟩ := Option.map_eq_some'.mp hrow
  have hvmem : v ∈ db := List.mem_of_find?_eq_some hv
  have hvid : v.id = aid := by
    have := List.find?_some hv
    simpa [applyApplicationUpdate_id] using this
  refine ⟨v, hvmem, hvid, huniq v hvmem hvid, ?_⟩
  unfold updateApplication
  rw [hw]
  simp only [hvalid, if_true]
  rw [List.find?_map, hv]
  simp [hveq]

/-- C8 counterexample: the claim asserts that every entity with an update
operation bumps an updated-at marker, but the `achievements` table created
by `init_db` has no `updated_at` column at all (and the
`update_achievement` SET clause touches none): the claim is false for the
achievement entity, concretely visible in the schema embedded from
app/database.py.  Profiles and applications do carry the column. -/
theorem claim_C8_counterexample :
    ("updated_at") ∉ achievementsTableColumns ∧
    ("updated_at") ∈ profilesTableColumns ∧
    ("updated_at") ∈ applicationsTableColumns := by
  decide

/-- C8 (amended): a successful update applies every submitted field, and
profile and application updates additionally set
`updated_at = CURRENT_TIMESTAMP`; the achievement update applies every
submitted field but has no updated-at marker to bump (the table has no such
column). -/
theorem claim_C8_update_applies_fields :
    (∀ (uid : Nat) (u : ProfileUpdate) (dbNow : Nat) (db : List ProfileRow),
      ∀ r ∈ db, r.user_id = uid →
        ∃ r' ∈ updateProfile uid u dbNow db,
          r'.id = r.id ∧ r'.name = u.name ∧ r'.email = u.email ∧
          r'.phone = u.phone ∧ r'.location = u.location ∧
          r'.linkedin = u.linkedin ∧ r'.website = u.website ∧
          r'.summary = u.summary ∧ r'.branding_color = u.branding_color ∧
          r'.branding_font = u.branding_font ∧
          r'.target_roles = some (serializeListField u.target_roles) ∧
          r'.user_values = some (serializeListField u.values) ∧
          r'.updated_at = dbNow) ∧
    (∀ (uid aid : Nat) (u : ApplicationUpdate) (nowIso dbNow : Nat)
        (db : List AppRow),
      (∃ r ∈ db, r.id = aid ∧ r.user_id = uid) →
      (∀ r ∈ db, r.id = aid → r.user_id = uid) →
      validStatusCheck u.status = true →
      ∃ row db', updateApplication uid aid u nowIso dbNow db = (.ok row, db') ∧
        row.job_title = u.job_title ∧ row.company = u.company ∧
        row.job_url = u.job_url ∧ row.job_description = u.job_description ∧
        row.status = u.status ∧ row.match_score = u.match_score ∧
        row.notes = u.notes ∧ row.updated_at = dbNow) ∧
    (∀ (uid aid : Nat) (u : AchievementUpdate) (db : List AchRow),
      (∃ r ∈ db, r.id = aid ∧ r.user_id = uid) →
      (∀ r ∈ db, r.id = aid → r.user_id = uid) →
      ∃ row db', updateAchievement uid aid u db = (.ok row, db') ∧
        row.core_task = u.core_task ∧ row.impact_metric = u.impact_metric ∧
        row.skills_used = some (serializeListField u.skills_used) ∧
        row.tags = some (serializeListField u.tags) ∧
        row.company = u.company ∧ row.role = u.role ∧ row.year = u.year ∧
        row.verification_level = u.verification_level) := by
  refine ⟨?_, ?_, ?_⟩
  · intro uid u dbNow db r hr hruid
    refine ⟨applyProfileUpdate uid u dbNow r, List.mem_map_of_mem _ hr, ?_⟩
    unfold applyProfileUpdate
    simp [hruid]
  · intro uid aid u nowIso dbNow db hex huniq hvalid
    obtain ⟨v, hvmem, hvid, hvuid, heq⟩ :=
      updateApplication_ok uid aid u nowIso dbNow db hex huniq hvalid
    refine ⟨applyApplicationUpdate uid aid u nowIso dbNow v,
      db.map (applyApplicationUpdate uid aid u nowIso dbNow), heq, ?_⟩
    unfold applyApplicationUpdate
    simp [hvid, hvuid]
  · intro uid aid u db hex huniq
    obtain ⟨v, hvmem, hvid, hvuid, heq⟩ := updateAchievement_ok uid aid u db hex huniq
    refine ⟨applyAchievementUpdate uid aid u v,
      db.map (applyAchievementUpdate uid aid u), heq, ?_⟩
    unfold applyAchievementUpdate
    simp [hvid, hvuid]

/-- C8 witness: one concrete instance of each conjunct. -/
theorem claim_C8_witness :
    (∃ r' ∈ updateProfile 1
        { name := some ("N"), email := none, phone := none, location := none,
          linkedin := none, website := none, summary := none,
          branding_color := none, branding_font := none,
          target_roles := some [("SRE")], values := none } 9
        [{ id := 2, user_id := 1, name := none, email := none, phone := none,
           location := none, linkedin := none, website := none, summary := none,
           branding_color := none, branding_font := none, target_roles := none,
           user_values := none, created_at := 0, updated_at := 0 }],
      r'.id = 2 ∧ r'.name = some ("N") ∧ r'.email = none ∧ r'.phone = none ∧
      r'.location = none ∧ r'.linkedin = none ∧ r'.website = none ∧
      r'.summary = none ∧ r'.branding_color = none ∧ r'.branding_font = none ∧
      r'.target_roles = some (serializeListField (some [("SRE")])) ∧
      r'.user_values = some (serializeListField none) ∧ r'.updated_at = 9) ∧
    (∃ row db', updateApplication 1 4
        { job_title := some ("T"), company := none, job_url := none,
          job_description := none, status := some ("saved"),
          match_score := some 7, notes := none } 50 51
        [{ id := 4, user_id := 1, job_title := none, company := none,
           job_url := none, job_description := none, status := some ("saved"),
           match_score := none, notes := none, applied_at := none,
           created_at := 0, updated_at := 0 }] = (.ok row, db') ∧
      row.job_title = some ("T") ∧ row.company = none ∧ row.job_url = none ∧
      row.job_description = none ∧ row.status = some ("saved") ∧
      row.match_score = some 7 ∧ row.notes = none ∧ row.updated_at = 51) := by
  constructor
  · have h := claim_C8_update_applies_fields.1 1
      { name := some ("N"), email := none, phone := none, location := none,
        linkedin := none, website := none, summary := none,
        branding_color := none, branding_font := none,
        target_roles := some [("SRE")], values := none } 9
      [{ id := 2, user_id := 1, name := none, email := none, phone := none,
         location := none, linkedin := none, website := none, summary := none,
         branding_color := none, branding_font := none, target_roles := none,
         user_values := none, created_at := 0, updated_at := 0 }]
      _ (List.mem_singleton_self _) rfl
    obtain ⟨r', hmem, hid, hrest⟩ := h
    exact ⟨r', hmem, hid, hrest⟩
  · have h := claim_C8_update_applies_fields.2.1 1 4
      { job_title := some ("T"), company := none, job_url := none,
        job_description := none, status := some ("saved"),
        match_score := some 7, notes := none } 50 51
      [{ id := 4, user_id := 1, job_title := none, company := none,
         job_url := none, job_description := none, status := some ("saved"),
         match_score := none, notes := none, applied_at := none,
         created_at := 0, updated_at := 0 }]
      ⟨_, List.mem_singleton_self _, rfl, rfl⟩ (by decide) (by decide)
    obtain ⟨row, db', heq, hrest⟩ := h
    exact ⟨row, db', heq, hrest⟩

/-- C10: the conversational history fed to the model.  For a chat log whose
rows are in strictly increasing `created_at` order (the append-only log
under a monotone clock), the history query returns exactly the caller's
first (oldest) at most twenty messages in stored order; the incoming
message — inserted only after the history is read, with a fresh timestamp —
is never among them; and the transcript handed to `start_chat` is the fixed
preamble plus exactly those rows, with the new message sent separately. -/
theorem claim_C10_chat_history (uid : Nat) (msg : String) (newId t1 : Nat)
    (db : List ChatRow)
    (hsorted : db.Pairwise (fun a b => a.created_at < b.created_at))
    (hfresh : ∀ r ∈ db, r.created_at < t1) :
    chatHistoryQuery db uid = (db.filter (fun m => m.user_id == uid)).take 20 ∧
    (chatHistoryQuery db uid).length ≤ 20 ∧
    ({ id := newId, user_id := uid, role := ("user"), content := msg,
       created_at := t1 } : ChatRow) ∉ chatHistoryQuery db uid ∧
    chatReadAndLog uid msg newId t1 db =
      (chatHistoryQuery db uid,
       db ++ [{ id := newId, user_id := uid, role := ("user"), content := msg,
                created_at := t1 }]) ∧
    buildGeminiMessages (chatHistoryQuery db uid) msg =
      (interviewerPreamble ++
         (chatHistoryQuery db uid).map (fun m =>
           { role := if m.role == ("user") then ("user") else ("model"),
             parts := m.content }),
       msg) := by
  have hq : chatHistoryQuery db uid =
      (db.filter (fun m => m.user_id == uid)).take 20 := by
    unfold chatHistoryQuery
    have hps : (db.filter (fun m => m.user_id == uid)).Pairwise
        (fun a b => a.created_at < b.created_at) :=
      List.Pairwise.sublist (List.filter_sublist db) hsorted
    have hsort : List.Sorted (fun (a b : ChatRow) => a.created_at ≤ b.created_at)
        (db.filter (fun m => m.user_id == uid)) :=
      hps.imp (fun h => Nat.le_of_lt h)
    rw [List.Sorted.insertionSort_eq hsort]
  refine ⟨hq, ?_, ?_, rfl, rfl⟩
  · rw [hq]
    exact List.length_take_le 20 _
  · rw [hq]
    intro hmem
    have hmem2 : ({ id := newId, user_id := uid, role := ("user"),
                    content := msg, created_at := t1 } : ChatRow) ∈ db :=
      ((List.take_sublist 20 _).trans (List.filter_sublist db)).mem hmem
    exact absurd (hfresh _ hmem2) (by simp)

/-- C10 witness: a three-row log for two users with an increasing clock. -/
theorem claim_C10_witness :
    chatHistoryQuery
        [{ id := 1, user_id := 1, role := ("user"), content := ("hi"),
           created_at := 1 },
         { id := 2, user_id := 2, role := ("user"), content := ("yo"),
           created_at := 2 },
         { id := 3, user_id := 1, role := ("assistant"), content := ("hello"),
           created_at := 3 }] 1 =
      [{ id := 1, user_id := 1, role := ("user"), content := ("hi"),
         created_at := 1 },
       { id := 3, user_id := 1, role := ("assistant"), content := ("hello"),
         created_at := 3 }] ∧
    ({ id := 9, user_id := 1, role := ("user"), content := ("new msg"),
       created_at := 7 } : ChatRow) ∉ chatHistoryQuery
        [{ id := 1, user_id := 1, role := ("user"), content := ("hi"),
           created_at := 1 },
         { id := 2, user_id := 2, role := ("user"), content := ("yo"),
           created_at := 2 },
         { id := 3, user_id := 1, role := ("assistant"), content := ("hello"),
           created_at := 3 }] 1 := by
  have h := claim_C10_chat_history 1 ("new msg") 9 7
    [{ id := 1, user_id := 1, role := ("user"), content := ("hi"),
       created_at := 1 },
     { id := 2, user_id := 2, role := ("user"), content := ("yo"),
       created_at := 2 },
     { id := 3, user_id := 1, role := ("assistant"), content := ("hello"),
       created_at := 3 }]
    (by decide) (by decide)
  refine ⟨?_, h.2.2.1⟩
  rw [h.1]
  decide

/-- Hex digits round-trip through the codec alphabet. -/
theorem hexCharVal_hexDigitChar : ∀ d, d < 16 →
    hexCharVal (hexDigitChar d) = some d := by
  decide

/-- Every Lean `Char` is a Unicode scalar value: below the surrogate range
or above it and below 0x110000. -/
theorem char_toNat_valid (c : Char) :
    c.toNat < 55296 ∨ (57343 < c.toNat ∧ c.toNat < 1114112) :=
  c.valid

/-- Four rendered hex digits parse back to the rendered value. -/
theorem parseUEscape_hex4 (n : Nat) (hn : n < 65536) (tail : Chars) :
    parseUEscape (hex4 n ++ tail) = some (n, tail) := by
  unfold hex4 parseUEscape take4 hex4Val
  simp only [List.cons_append, List.nil_append]
  rw [hexCharVal_hexDigitChar _ (Nat.mod_lt _ (by omega)),
      hexCharVal_hexDigitChar _ (Nat.mod_lt _ (by omega)),
      hexCharVal_hexDigitChar _ (Nat.mod_lt _ (by omega)),
      hexCharVal_hexDigitChar _ (Nat.mod_lt _ (by omega))]
  simp only [Option.map_some']
  rw [show n / 4096 % 16 * 4096 + n / 256 % 16 * 256 + n / 16 % 16 * 16 +
      n % 16 = n from by omega]

/-- Escape decoding of a rendered `\uXXXX` outside the surrogate range. -/
theorem decodeEscape_uBMP (n : Nat) (hn : n < 65536)
    (hs1 : ¬(55296 ≤ n ∧ n < 56320)) (hs2 : ¬(56320 ≤ n ∧ n < 57344))
    (tail : Chars) :
    decodeEscape ('u' :: (hex4 n ++ tail)) = some (Char.ofNat n, tail) := by
  unfold decodeEscape
  simp only [if_true]
  rw [parseUEscape_hex4 n hn]
  simp only []
  rw [if_neg hs1, if_neg hs2]

/-- Escape decoding of a rendered surrogate pair. -/
theorem decodeEscape_uPair (n m : Nat)
    (hn : 55296 ≤ n ∧ n < 56320) (hm : 56320 ≤ m ∧ m < 57344) (tail : Chars) :
    decodeEscape ('u' :: (hex4 n ++ ('\\' :: 'u' :: (hex4 m ++ tail)))) =
      some (Char.ofNat (65536 + (n - 55296) * 1024 + (m - 56320)), tail) := by
  unfold decodeEscape
  simp only [if_true]
  rw [parseUEscape_hex4 n (by omega)]
  simp only []
  rw [if_pos hn]
  unfold hex4
  simp only [List.cons_append, List.nil_append, true_and, if_true]
  rw [show hexDigitChar (m / 4096 % 16) :: hexDigitChar (m / 256 % 16) ::
      hexDigitChar (m / 16 % 16) :: hexDigitChar (m % 16) :: tail =
      hex4 m ++ tail from by unfold hex4; simp]
  rw [parseUEscape_hex4 m (by omega)]
  simp only []
  rw [if_pos hm]

/-- One encoded character parses back off the front of the stream, costing
exactly one unit of fuel and leaving the rest to the string-body parser. -/
theorem parseStringBodyF_encodeChar (c : Char) (tail : Chars) (fuel : Nat) :
    parseStringBodyF (fuel + 1) (encodeChar c ++ tail) =
      (parseStringBodyF fuel tail).map (fun pr => (c :: pr.1, pr.2)) := by
  by_cases hq : c = '"'
  · subst hq
    rfl
  by_cases hbs : c = '\\'
  · subst hbs
    rfl
  by_cases hpr : 32 ≤ c.toNat ∧ c.toNat ≤ 126
  · rw [show encodeChar c = [c] from by
      unfold encodeChar; rw [if_neg hq, if_neg hbs, if_pos hpr]]
    simp only [List.cons_append, List.nil_append]
    rw [parseStringBodyF.eq_def]
    simp only []
    rw [if_neg hq, if_neg hbs, if_pos hpr.1]
  by_cases h8 : c.toNat = 8
  · have hc : c = Char.ofNat 8 := by rw [← h8, Char.ofNat_toNat]
    subst hc
    rfl
  by_cases h9 : c.toNat = 9
  · have hc : c = Char.ofNat 9 := by rw [← h9, Char.ofNat_toNat]
    subst hc
    rfl
  by_cases h10 : c.toNat = 10
  · have hc : c = Char.ofNat 10 := by rw [← h10, Char.ofNat_toNat]
    subst hc
    rfl
  by_cases h12 : c.toNat = 12
  · have hc : c = Char.ofNat 12 := by rw [← h12, Char.ofNat_toNat]
    subst hc
    rfl
  by_cases h13 : c.toNat = 13
  · have hc : c = Char.ofNat 13 := by rw [← h13, Char.ofNat_toNat]
    subst hc
    rfl
  by_cases hbmp : c.toNat < 65536
  · have hval := char_toNat_valid c
    have henc : encodeChar c = '\\' :: 'u' :: hex4 c.toNat := by
      unfold encodeChar
      rw [if_neg hq, if_neg hbs, if_neg hpr, if_neg h8, if_neg h9, if_neg h10,
          if_neg h12, if_neg h13, if_pos hbmp]
    rw [henc]
    simp only [List.cons_append]
    rw [parseStringBodyF.eq_def]
    simp only []
    rw [if_neg (by decide : ¬('\\' : Char) = '"')]
    simp only [if_true]
    rw [decodeEscape_uBMP c.toNat hbmp (by omega) (by omega)]
    rw [Char.ofNat_toNat]
  · have hval := char_toNat_valid c
    have henc : encodeChar c =
        '\\' :: 'u' :: hex4 (55296 + (c.toNat - 65536) / 1024) ++
        '\\' :: 'u' :: hex4 (56320 + (c.toNat - 65536) % 1024) := by
      unfold encodeChar
      rw [if_neg hq, if_neg hbs, if_neg hpr, if_neg h8, if_neg h9, if_neg h10,
          if_neg h12, if_neg h13, if_neg hbmp]
    rw [henc]
    simp only [List.cons_append, List.append_assoc]
    rw [parseStringBodyF.eq_def]
    simp only []
    rw [if_neg (by decide : ¬('\\' : Char) = '"')]
    simp only [if_true]
    rw [decodeEscape_uPair (55296 + (c.toNat - 65536) / 1024)
        (56320 + (c.toNat - 65536) % 1024)
        (by omega) (by omega)]
    rw [show 65536 + (55296 + (c.toNat - 65536) / 1024 - 55296) * 1024 +
        (56320 + (c.toNat - 65536) % 1024 - 56320) = c.toNat from by omega]
    rw [Char.ofNat_toNat]

/-- An encoded character is never empty. -/
theorem encodeChar_length_pos (c : Char) : 1 ≤ (encodeChar c).length := by
  unfold encodeChar
  split_ifs <;> simp [hex4]

/-- Encoding a string body never shortens it. -/
theorem length_le_encodeChars (s : Chars) : s.length ≤ (encodeChars s).length := by
  induction s with
  | nil => simp [encodeChars]
  | cons c t ih =>
    have := encodeChar_length_pos c
    simp only [encodeChars, List.length_append, List.length_cons]
    omega

/-- A whole encoded string body parses back, given fuel for each decoded
character plus one step for the closing quote. -/
theorem parseStringBodyF_encodeChars (s : Chars) : ∀ (fuel : Nat) (tail : Chars),
    s.length + 1 ≤ fuel →
    parseStringBodyF fuel (encodeChars s ++ '"' :: tail) = some (s, tail) := by
  induction s with
  | nil =>
    intro fuel tail hf
    match fuel, hf with
    | f + 1, _ => rfl
  | cons c t ih =>
    intro fuel tail hf
    match fuel, hf with
    | f + 1, hf =>
      show parseStringBodyF (f + 1) (encodeChars (c :: t) ++ '"' :: tail) = _
      rw [show encodeChars (c :: t) = encodeChar c ++ encodeChars t from rfl,
          List.append_assoc, parseStringBodyF_encodeChar]
      rw [ih f tail (by simpa using Nat.lt_succ_iff.mp (by simpa using hf))]
      rfl

/-- The string-body parser itself (input length as fuel) round-trips an
encoded body. -/
theorem parseStringBody_encodeChars (s : Chars) (tail : Chars) :
    parseStringBody (encodeChars s ++ '"' :: tail) = some (s, tail) := by
  unfold parseStringBody
  apply parseStringBodyF_encodeChars
  have := length_le_encodeChars s
  simp only [List.length_append, List.length_cons]
  omega

/-- A full encoded string literal parses back with suffix intact. -/
theorem parseQuotedString_encodeString (s : Chars) (tail : Chars) :
    parseQuotedString (encodeString s ++ tail) = some (s, tail) := by
  unfold encodeString
  simp only [List.cons_append, List.append_assoc, List.singleton_append]
  show parseQuotedString ('"' :: (encodeChars s ++ '"' :: tail)) = _
  unfold parseQuotedString
  exact parseStringBody_encodeChars s tail

/-- Skipping whitespace does nothing at a non-whitespace character. -/
theorem skipWs_cons (c : Char) (cs : Chars) (h : isJsonWs c = false) :
    skipWs (c :: cs) = c :: cs := by
  simp [skipWs, List.dropWhile_cons, h]

/-- The encoded form of a non-empty list starts with a quote. -/
theorem encListSep_cons_head (s : Chars) (t : List Chars) :
    ∃ rest, encListSep (s :: t) = '"' :: rest := by
  cases t with
  | nil => exact ⟨encodeChars s ++ ['"'], rfl⟩
  | cons b t' => exact ⟨(encodeChars s ++ ['"']) ++ ',' :: ' ' :: encListSep (b :: t'), rfl⟩

/-- The element parser consumes an encoded element list up to and past the
closing bracket, with one unit of fuel per element. -/
theorem parseElemsF_encListSep (l : List Chars) : ∀ (fuel : Nat) (tail : Chars),
    l ≠ [] → l.length ≤ fuel →
    parseElemsF fuel (encListSep l ++ ']' :: tail) = some (l, tail) := by
  induction l with
  | nil => intro fuel tail hne _; exact absurd rfl hne
  | cons s t ih =>
    intro fuel tail _ hlen
    match fuel, hlen with
    | f + 1, hlen =>
      cases t with
      | nil =>
        show parseElemsF (f + 1) (encodeString s ++ ']' :: tail) = _
        unfold parseElemsF
        rw [parseQuotedString_encodeString]
        simp only []
        rw [skipWs_cons _ _ (by decide)]
        rfl
      | cons b t' =>
        show parseElemsF (f + 1)
            ((encodeString s ++ ',' :: ' ' :: encListSep (b :: t')) ++ ']' :: tail) = _
        rw [List.append_assoc]
        unfold parseElemsF
        rw [parseQuotedString_encodeString]
        simp only [List.cons_append]
        rw [skipWs_cons _ _ (by decide)]
        simp only []
        obtain ⟨rest, hrest⟩ := encListSep_cons_head b t'
        have hsk : skipWs (' ' :: (encListSep (b :: t') ++ ']' :: tail)) =
            encListSep (b :: t') ++ ']' :: tail := by
          unfold skipWs
          rw [List.dropWhile_cons]
          simp only [show isJsonWs ' ' = true from rfl, if_true]
          rw [hrest]
          simp only [List.cons_append]
          rw [List.dropWhile_cons]
          simp only [show isJsonWs '"' = false from rfl]
          simp
        rw [hsk, ih f tail (by simp) (by simpa using Nat.lt_succ_iff.mp (by simpa using hlen))]

/-- An encoded element list is at least as long as the list. -/
theorem length_le_encListSep : ∀ l : List Chars, l.length ≤ (encListSep l).length := by
  intro l
  induction l with
  | nil => simp [encListSep]
  | cons a b ih =>
    cases b with
    | nil =>
      unfold encListSep encodeString
      simp
    | cons a2 b2 =>
      unfold encListSep
      simp only [List.length_cons, List.length_append]
      unfold encodeString
      simp only [List.length_cons, List.length_append]
      have := ih
      simp only [List.length_cons] at this
      omega

/-- `json.loads(json.dumps(l))` recovers any list of strings. -/
theorem loadsStrList_dumps (l : List Chars) : loadsStrList (dumps l) = some l := by
  cases l with
  | nil => rfl
  | cons s t =>
    unfold dumps loadsStrList
    rw [skipWs_cons _ _ (by decide)]
    simp only []
    obtain ⟨rest, hrest⟩ := encListSep_cons_head s t
    rw [hrest]
    simp only [List.cons_append]
    have hsk := fun cs => skipWs_cons '"' cs (by decide)
    simp only [hsk]
    rw [if_neg (by simp : ¬(('"' :: (rest ++ [']'])).head? = some ']'))]
    rw [show ('"' : Char) :: (rest ++ [']']) = ('"' :: rest) ++ [']'] from rfl,
        ← hrest]
    have hfuel : (s :: t).length ≤ ('[' :: (encListSep (s :: t) ++ [']'])).length + 1 := by
      have h1 := length_le_encListSep (s :: t)
      simp only [List.length_cons, List.length_append]
      simp only [List.length_cons] at h1
      omega
    rw [show encListSep (s :: t) ++ [']'] = encListSep (s :: t) ++ ']' :: [] from rfl]
    rw [parseElemsF_encListSep (s :: t) _ [] (by simp) hfuel]
    rfl

/-- C2: list fields round-trip and degrade.  First part: for every list of
strings, writing it the way the create/update handlers do (`json.dumps`,
with `"[]"` for the falsy cases) and reading it back the way the read
handlers do (`json.loads` with the bare-`except` fallback) returns the very
same list, order and content intact — this is the code path shared by
`target_roles`, `values`, `skills_used` and `tags`.  Second part: a stored
text the parser rejects degrades to the empty list instead of an error. -/
theorem claim_C2_list_roundtrip :
    (∀ l : List String, readListField (some (serializeListField (some l))) = l) ∧
    (∀ s : String, loadsStrList s.data = none → readListField (some s) = []) := by
  constructor
  · intro l
    by_cases hl : l = []
    · subst hl
      rfl
    · unfold serializeListField readListField
      simp only []
      rw [if_neg hl]
      simp only [String.data]
      have hne : dumps (l.map (fun s => s.data)) ≠ [] := by
        unfold dumps
        simp
      rw [if_neg hne]
      rw [loadsStrList_dumps]
      simp only [List.map_map]
      rw [show ((fun cs => String.mk cs) ∘ fun s => s.data) = id from by
        funext s; cases s; rfl]
      exact List.map_id l
  · intro s hs
    unfold readListField
    simp only []
    by_cases he : s.data = []
    · rw [if_pos he]
    · rw [if_neg he, hs]

/-- C2 witness: the worked example from the spec plus a malformed stored
text. -/
theorem claim_C2_witness :
    readListField (some (serializeListField (some [("Go"), ("SQL")]))) =
      [("Go"), ("SQL")] ∧
    loadsStrList (("not json").data) = none ∧
    readListField (some ("not json")) = [] := by
  refine ⟨claim_C2_list_roundtrip.1 [("Go"), ("SQL")], by decide, ?_⟩
  exact claim_C2_list_roundtrip.2 ("not json") (by decide)

/-- C7 counterexample: the model reply `{"x": 1}` contains parseable JSON
that does not fit the expected shape.  `tailor_resume` returns the parsed
object as-is — not the degraded well-typed default — and
`TailorResponse(**result)` in the handler then fails validation, which
FastAPI surfaces as a server error.  This refutes the claim that a
shape-mismatched reply yields a degraded but well-typed default and is
never surfaced as a server error. -/
theorem claim_C7_counterexample :
    (validateTailorResponse (tailorResume true (("\x7b\"x\": 1\x7d").data))).isNone = true ∧
    (validateTailorResponse defaultTailorPayload).isSome = true ∧
    tailorResume true (("\x7b\"x\": 1\x7d").data) ≠ defaultTailorPayload := by
  refine ⟨by decide, by decide, ?_⟩
  intro heq
  have h1 : (validateTailorResponse
      (tailorResume true (("\x7b\"x\": 1\x7d").data))).isNone = true := by decide
  rw [heq] at h1
  exact absurd h1 (by decide)

/-- C7 (amended): the adapter operations never raise on a reply that
contains no parseable JSON — each returns its fixed well-typed default
(`tailor_resume` and `extract_profile_from_resume` their sentinel payloads,
`chat_with_interviewer` the raw reply with no draft), and the missing-key
payloads are likewise fixed defaults.  However, extracted JSON that parses
but does not fit the expected shape is returned unvalidated (surfacing
downstream, as the counterexample shows), so the never-raise guarantee
covers only the parse-failure modes. -/
theorem claim_C7_degrade_on_parse_failure :
    (∀ reply : Chars, tailorResume false reply = notConfiguredTailorPayload) ∧
    (∀ reply : Chars, extractFirstJsonObject reply = none →
      tailorResume true reply = defaultTailorPayload) ∧
    (∀ reply span : Chars, extractFirstJsonObject reply = some span →
      loadsGeneral span = none → tailorResume true reply = defaultTailorPayload) ∧
    (validateTailorResponse defaultTailorPayload).isSome = true ∧
    (validateTailorResponse notConfiguredTailorPayload).isSome = true ∧
    (∀ reply span : Chars, extractFirstJsonObject reply = some span →
      loadsGeneral span = none →
      extractProfileParse reply = .jobj (.cons (("error").data)
        (.jstr (("Unable to extract profile information. Please try again.").data)) .nil)) ∧
    (∀ reply : Chars, findFencedJson reply = none →
      chatParseReply reply = .ok (reply, none)) := by
  refine ⟨?_, ?_, ?_, by decide, by decide, ?_, ?_⟩
  · intro reply
    rfl
  · intro reply hx
    unfold tailorResume
    rw [hx]
    rfl
  · intro reply span hx hl
    unfold tailorResume
    rw [hx]
    simp only []
    rw [hl]
    rfl
  · intro reply span hx hl
    unfold extractProfileParse
    rw [hx]
    simp only []
    rw [hl]
  · intro reply hf
    unfold chatParseReply
    rw [hf]

/-- C7 witness: a reply with no brace span, and one whose span is not
valid JSON. -/
theorem claim_C7_witness :
    tailorResume true (("no json here").data) = defaultTailorPayload ∧
    extractFirstJsonObject (("x \x7b oops").data) = none ∧
    tailorResume false (("anything").data) = notConfiguredTailorPayload ∧
    extractFirstJsonObject (("\x7b not json \x7d").data) =
      some (("\x7b not json \x7d").data) ∧
    loadsGeneral (("\x7b not json \x7d").data) = none ∧
    tailorResume true (("\x7b not json \x7d").data) = defaultTailorPayload := by
  refine ⟨?_, by decide, ?_, by decide, ?_, ?_⟩
  · exact claim_C7_degrade_on_parse_failure.2.1 (("no json here").data) (by decide)
  · exact claim_C7_degrade_on_parse_failure.1 (("anything").data)
  · decide
  · exact claim_C7_degrade_on_parse_failure.2.2.1 (("\x7b not json \x7d").data)
      (("\x7b not json \x7d").data) (by decide) (by decide)

/-- C9 counterexample: the model reply
``` ```json {"achievement_extracted": 5} ``` ``` carries a fenced block
that parses to an object with the `achievement_extracted` key, but the
payload is the number 5 — not a mapping — so
`AchievementCreate(**payload)` raises `TypeError`, which the
`except (json.JSONDecodeError, ValueError)` handler does not catch: the
adapter raises instead of returning the raw reply with an empty draft,
refuting the claim's "draft empty and raw reply returned" dichotomy. -/
theorem claim_C9_counterexample :
    chatParseReply (("```json \x7b\"achievement_extracted\": 5\x7d ```").data) =
      .error .typeErr ∧
    chatParseReply (("```json \x7b\"achievement_extracted\": 5\x7d ```").data) ≠
      .ok ((("```json \x7b\"achievement_extracted\": 5\x7d ```").data), none) := by
  refine ⟨rfl, ?_⟩
  intro h
  have h1 : (Except.error PyRaise.typeErr : Except PyRaise (Chars × Option AchievementCreateM)) =
      .ok ((("```json \x7b\"achievement_extracted\": 5\x7d ```").data), none) := by
    rw [← h]
    rfl
  exact Except.noConfusion h1

/-- C9 (amended): a fenced JSON block whose `achievement_extracted` payload
is a mapping that validates as an achievement produces the trimmed visible
reply (all copies of the block removed, ends stripped) with the captured
confirmation appended, alongside the draft; a missing fence, an unparseable
block, a missing key, or a mapping payload that fails validation all leave
the draft empty and the raw reply unmodified; only a payload that parses
but is not a mapping raises (`TypeError`). -/
theorem claim_C9_chat_extraction :
    (∀ (reply g0 g1 : Chars) (fields payload : JObj) (a : AchievementCreateM),
      findFencedJson reply = some (g0, g1) →
      loadsGeneral g1 = some (.jobj fields) →
      jsonLookup fields (("achievement_extracted").data) = some (.jobj payload) →
      validateAchievementCreate payload = some a →
      chatParseReply reply =
        .ok (stripPy (replaceAll reply g0 []) ++ capturedSuffix, some a)) ∧
    (∀ reply : Chars, findFencedJson reply = none →
      chatParseReply reply = .ok (reply, none)) ∧
    (∀ (reply g0 g1 : Chars), findFencedJson reply = some (g0, g1) →
      loadsGeneral g1 = none → chatParseReply reply = .ok (reply, none)) ∧
    (∀ (reply g0 g1 : Chars) (fields : JObj),
      findFencedJson reply = some (g0, g1) →
      loadsGeneral g1 = some (.jobj fields) →
      jsonLookup fields (("achievement_extracted").data) = none →
      chatParseReply reply = .ok (reply, none)) ∧
    (∀ (reply g0 g1 : Chars) (fields payload : JObj),
      findFencedJson reply = some (g0, g1) →
      loadsGeneral g1 = some (.jobj fields) →
      jsonLookup fields (("achievement_extracted").data) = some (.jobj payload) →
      validateAchievementCreate payload = none →
      chatParseReply reply = .ok (reply, none)) := by
  refine ⟨?_, ?_, ?_, ?_, ?_⟩
  · intro reply g0 g1 fields payload a hf hl hk hv
    unfold chatParseReply
    rw [hf]
    simp only []
    rw [hl]
    simp only []
    rw [hk]
    simp only []
    rw [hv]
  · intro reply hf
    unfold chatParseReply
    rw [hf]
  · intro reply g0 g1 hf hl
    unfold chatParseReply
    rw [hf]
    simp only []
    rw [hl]
  · intro reply g0 g1 fields hf hl hk
    unfold chatParseReply
    rw [hf]
    simp only []
    rw [hl]
    simp only []
    rw [hk]
  · intro reply g0 g1 fields payload hf hl hk hv
    unfold chatParseReply
    rw [hf]
    simp only []
    rw [hl]
    simp only []
    rw [hk]
    simp only []
    rw [hv]

/-- C9 witness: a concrete captured achievement and a concrete swallowed
parse failure. -/
theorem claim_C9_witness :
    chatParseReply (("Good. ```json \x7b\"achievement_extracted\": \x7b\"core_task\": \"T\"\x7d\x7d ``` bye").data) =
      .ok (stripPy (replaceAll
            (("Good. ```json \x7b\"achievement_extracted\": \x7b\"core_task\": \"T\"\x7d\x7d ``` bye").data)
            (("```json \x7b\"achievement_extracted\": \x7b\"core_task\": \"T\"\x7d\x7d ```").data)
            []) ++ capturedSuffix,
          some { core_task := ("T"), impact_metric := none,
                 skills_used := some [], tags := some [], company := none,
                 role := none, year := none,
                 verification_level := some ("Medium") }) ∧
    chatParseReply (("```json \x7bbroken\x7d ```").data) =
      .ok ((("```json \x7bbroken\x7d ```").data), none) := by
  constructor
  · exact claim_C9_chat_extraction.1
      (("Good. ```json \x7b\"achievement_extracted\": \x7b\"core_task\": \"T\"\x7d\x7d ``` bye").data)
      (("```json \x7b\"achievement_extracted\": \x7b\"core_task\": \"T\"\x7d\x7d ```").data)
      (("\x7b\"achievement_extracted\": \x7b\"core_task\": \"T\"\x7d\x7d").data)
      (.cons (("achievement_extracted").data)
        (.jobj (.cons (("core_task").data) (.jstr (("T").data)) .nil)) .nil)
      (.cons (("core_task").data) (.jstr (("T").data)) .nil)
      { core_task := ("T"), impact_metric := none, skills_used := some [],
        tags := some [], company := none, role := none, year := none,
        verification_level := some ("Medium") }
      (by decide) (by decide) (by decide) (by decide)
  · exact claim_C9_chat_extraction.2.2.1
      (("```json \x7bbroken\x7d ```").data)
      (("```json \x7bbroken\x7d ```").data)
      (("\x7bbroken\x7d").data)
      (by decide) (by decide)

end CareerOS
